import Mathlib

/-!
Verification development for the LicenseCurationToolkit repository.

This file gives a shallow embedding of the two scripts the claims are about:

* `workflow_components/scripts/policy_checker.py` — class `LicensePolicyChecker`
  (`normalize_license`, `check_license`, `_check_dual_license`,
  `_check_multi_license`, `_check_compatibility`);
* `workflow_components/scripts/smart_curation_engine.py` — class
  `SmartCurationEngine` (`_normalize_license`, the `load_*_results` ingestion
  loops, `generate_curations`, `_select_best_license`, `_is_license_approved`).

Python dicts are modelled as insertion-ordered association lists
(`List (String × β)`); dict assignment replaces the first occurrence of the
key and otherwise appends, exactly like CPython's insertion-order semantics.
Python floats are modelled as rationals (all constants in the scripts are
decimal literals, and the only operations are `+`, `*` and `min`, so the
order and clamping behaviour relied on by the claims is arithmetic, not
floating-point-specific).  File I/O is dropped: the loaders take the parsed
records as input.  `_check_dual_license` mutates the metadata dict returned
by the recursive `check_license` call; since that dict is aliased with an
entry of the checker's lookup tables exactly when the chosen operand was
resolved by the single-license branch, the embedding threads the checker
state explicitly and performs the corresponding table update in that case.
-/

namespace LCT

/-! ### Association lists: the model of Python dicts -/

/-- Lookup in an insertion-ordered association list (first occurrence wins),
modelling `d[k]` / `k in d` for a Python dict. -/
def dictGet {β : Type} : List (String × β) → String → Option β
  | [], _ => none
  | (k', v) :: m, k => if k' = k then some v else dictGet m k

/-- Assignment `d[k] = v` for a Python dict: replace the value at the first
occurrence of `k`, keeping its position, or append `(k, v)` at the end. -/
def dictSet {β : Type} : List (String × β) → String → β → List (String × β)
  | [], k, v => [(k, v)]
  | (k', v') :: m, k, v => if k' = k then (k, v) :: m else (k', v') :: dictSet m k v

@[simp] theorem dictGet_nil {β : Type} (k : String) : dictGet ([] : List (String × β)) k = none := rfl

@[simp] theorem dictGet_cons {β : Type} (k' : String) (v : β) (m : List (String × β)) (k : String) :
    dictGet ((k', v) :: m) k = if k' = k then some v else dictGet m k := rfl

theorem dictGet_dictSet_self {β : Type} (m : List (String × β)) (k : String) (v : β) :
    dictGet (dictSet m k v) k = some v := by
  induction m with
  | nil => simp [dictGet, dictSet]
  | cons hd tl ih =>
    obtain ⟨k', v'⟩ := hd
    by_cases h : k' = k <;> simp [dictGet, dictSet, h, ih]

theorem dictGet_dictSet_ne {β : Type} (m : List (String × β)) (k k' : String) (v : β)
    (h : k' ≠ k) : dictGet (dictSet m k v) k' = dictGet m k' := by
  induction m with
  | nil => simp [dictGet, dictSet, Ne.symm h]
  | cons hd tl ih =>
    obtain ⟨k₀, v₀⟩ := hd
    by_cases h₀ : k₀ = k <;> by_cases h₁ : k₀ = k' <;>
      simp_all [dictGet, dictSet, Ne.symm h]

theorem dictSet_dictSet_self {β : Type} (m : List (String × β)) (k : String) (v w : β) :
    dictSet (dictSet m k v) k w = dictSet m k w := by
  induction m with
  | nil => simp [dictSet]
  | cons hd tl ih =>
    obtain ⟨k₀, v₀⟩ := hd
    by_cases h : k₀ = k <;> simp [dictSet, h, ih]

theorem dictSet_of_dictGet_eq {β : Type} (m : List (String × β)) (k : String) (v : β)
    (h : dictGet m k = some v) : dictSet m k v = m := by
  induction m with
  | nil => simp [dictGet] at h
  | cons hd tl ih =>
    obtain ⟨k₀, v₀⟩ := hd
    by_cases hk : k₀ = k
    · simp [dictGet, hk] at h
      simp [dictSet, hk, h]
    · simp [dictGet, hk] at h
      simp [dictSet, hk, ih h]

theorem isSome_dictGet_dictSet {β : Type} (m : List (String × β)) (k k' : String) (v : β)
    (hk : (dictGet m k).isSome) :
    (dictGet (dictSet m k v) k').isSome = (dictGet m k').isSome := by
  by_cases h : k' = k
  · subst h
    simp [dictGet_dictSet_self, hk]
  · rw [dictGet_dictSet_ne m k k' v h]

theorem mem_dictSet {β : Type} (m : List (String × β)) (k : String) (v : β) (x : String × β)
    (hx : x ∈ dictSet m k v) : x = (k, v) ∨ x ∈ m := by
  induction m with
  | nil => simp [dictSet] at hx; simp [hx]
  | cons hd tl ih =>
    obtain ⟨k₀, v₀⟩ := hd
    by_cases h : k₀ = k
    · simp [dictSet, h] at hx
      rcases hx with hx | hx
      · left; simp [hx]
      · right; simp [hx]
    · simp [dictSet, h] at hx
      rcases hx with hx | hx
      · right; simp [hx]
      · rcases ih hx with h' | h'
        · left; exact h'
        · right; simp [h']

theorem dictGet_eq_some_mem {β : Type} (m : List (String × β)) (k : String) (v : β)
    (h : dictGet m k = some v) : (k, v) ∈ m := by
  induction m with
  | nil => simp [dictGet] at h
  | cons hd tl ih =>
    obtain ⟨k₀, v₀⟩ := hd
    by_cases hk : k₀ = k
    · simp [dictGet, hk] at h
      subst hk; subst h; simp
    · simp [dictGet, hk] at h
      simp [ih h]

/-! ### Character-level string helpers

Python's `str.strip`, the substring test `pat in s` and `str.split(sep)` are
modelled on the character list underlying the string, so that all string
operations are structural and computable by the kernel. -/

/-- Python `str.strip()`: drop whitespace from both ends. -/
def pyStrip (s : String) : String :=
  ⟨((s.data.dropWhile Char.isWhitespace).reverse.dropWhile Char.isWhitespace).reverse⟩

/-- Test whether `pat` occurs as a contiguous subsequence of `l`
(the character-level model of Python's `pat in s`). -/
def containsPat (pat : List Char) : List Char → Bool
  | [] => pat.isEmpty
  | c :: cs => pat.isPrefixOf (c :: cs) || containsPat pat cs

/-- Python's substring test `pat in s`. -/
def strContains (s pat : String) : Bool :=
  containsPat pat.data s.data

/-- Worker for `pySplitOn`.  The fuel argument only serves to make the
recursion structural; `fuel = length of the input + 1` is always enough,
because every step consumes at least one character. -/
def splitGo (sep : List Char) : Nat → List Char → List Char → List (List Char)
  | 0, rest, acc => [acc.reverse ++ rest]
  | _ + 1, [], acc => [acc.reverse]
  | fuel + 1, c :: cs, acc =>
    if sep.isPrefixOf (c :: cs) then
      acc.reverse :: splitGo sep fuel (List.drop (sep.length - 1) cs) []
    else
      splitGo sep fuel cs (c :: acc)

/-- Python `s.split(sep)` for a non-empty separator: greedy left-to-right
splitting on every occurrence of `sep`. -/
def pySplitOn (s sep : String) : List String :=
  (splitGo sep.data (s.data.length + 1) s.data []).map String.mk

/-! ### Embedding of `policy_checker.py` (`LicensePolicyChecker`) -/

/-- Enum `PolicyStatus` of `policy_checker.py`. -/
inductive PolicyStatus where
  | approved
  | conditional
  | forbidden
  | unknown
  | incompatible
deriving DecidableEq, Repr

/-- One entry of the `compatibility_issues` list built by
`_check_multi_license`. -/
structure CompatIssue where
  license1 : String
  license2 : String
  reason : String
deriving DecidableEq, Repr

/-- Values stored in the metadata dicts of the policy checker.  Python keeps
heterogeneous values (strings, booleans, lists) in one dict, modelled here by
a sum type. -/
inductive MVal where
  | str (s : String)
  | bool (b : Bool)
  | strList (l : List String)
  | issueList (l : List CompatIssue)
deriving DecidableEq, Repr

/-- A metadata dict of the policy checker (values of `approved_licenses`,
`conditional_licenses`, `forbidden_licenses`, and the dicts built inline by
`check_license` / `_check_dual_license` / `_check_multi_license`). -/
def Metadata := List (String × MVal)
deriving DecidableEq, Repr

/-- One entry of the `license_compatibility` list of the policy
(`combination` is the string `"A AND B"`; `reason` holds
`combo.get('reason', '')`). -/
structure CompatRule where
  combination : String
  compatible : Bool
  reason : String
deriving DecidableEq, Repr

/-- State of a `LicensePolicyChecker` after `__init__`: the three lookup
tables built by `_build_approved_list` / `_build_conditional_list` /
`_build_forbidden_list`, plus the parts of `self.policy` read by
`check_license` (`special_rules.dual_license_strategy`,
`special_rules.unknown_license_action`, `license_compatibility`). -/
structure Checker where
  approved_licenses : List (String × Metadata)
  conditional_licenses : List (String × Metadata)
  forbidden_licenses : List (String × Metadata)
  dual_license_strategy : String
  unknown_license_action : String
  license_compatibility : List CompatRule
deriving DecidableEq, Repr

/-- Method `normalize_license` of `LicensePolicyChecker`: strip whitespace
and apply the hard-coded mapping of common license-name variations. -/
def normalize_license (s : String) : String :=
  if s = "" then "NOASSERTION"
  else
    let normalized := pyStrip s
    if normalized = "MIT License" then "MIT"
    else if normalized = "Apache License 2.0" then "Apache-2.0"
    else if normalized = "BSD License" then "BSD-3-Clause"
    else if normalized = "GNU General Public License v3 or later (GPLv3+)" then "GPL-3.0-or-later"
    else if normalized = "GNU General Public License v3.0" then "GPL-3.0-only"
    else if normalized = "NONE" then "NOASSERTION"
    else normalized

/-- Method `_check_compatibility`, scanning `policy['license_compatibility']`:
the first rule whose `combination` equals `"{lic1} AND {lic2}"` or
`"{lic2} AND {lic1}"` wins; with no matching rule the pair is assumed
compatible. -/
def lookupCombo (lic1 lic2 : String) : List CompatRule → Bool × String
  | [] => (true, "Not explicitly listed as incompatible")
  | r :: rest =>
    if r.combination = lic1 ++ " AND " ++ lic2 ∨ r.combination = lic2 ++ " AND " ++ lic1 then
      (r.compatible, r.reason)
    else
      lookupCombo lic1 lic2 rest

/-- Method `_check_compatibility` of `LicensePolicyChecker`. -/
def check_compatibility (c : Checker) (lic1 lic2 : String) : Bool × String :=
  lookupCombo lic1 lic2 c.license_compatibility

/-- Python's quoted rendering of a string inside `str(list)`
(`'x'` with single quotes, written via the code point to keep the source
ASCII-clean). -/
def pyQuote (s : String) : String :=
  String.singleton (Char.ofNat 39) ++ s ++ String.singleton (Char.ofNat 39)

/-- Python's `str` rendering of a list of strings, as interpolated by the
f-string in `_check_dual_license`. -/
def pyListRepr (l : List String) : String :=
  "[" ++ String.intercalate ", " (l.map pyQuote) ++ "]"

/-- Lines 180-195 of `check_license`: the single-license branch, taking the
already-normalized expression.  Membership is checked against
`approved_licenses`, then `conditional_licenses`, then `forbidden_licenses`,
in that order; an id in none of them is `UNKNOWN`. -/
def check_single_license (c : Checker) (n : String) : PolicyStatus × Metadata :=
  match dictGet c.approved_licenses n with
  | some md => (PolicyStatus.approved, md)
  | none =>
    match dictGet c.conditional_licenses n with
    | some md => (PolicyStatus.conditional, md)
    | none =>
      match dictGet c.forbidden_licenses n with
      | some md => (PolicyStatus.forbidden, md)
      | none =>
        (PolicyStatus.unknown,
          [("category", MVal.str "unknown"),
           ("risk_level", MVal.str "high"),
           ("action", MVal.str c.unknown_license_action),
           ("reason", MVal.str "License not found in policy database")])

/-- Enumeration of the ordered pairs `(licenses[i], licenses[j])` with
`i < j`, as produced by the nested loops of `_check_multi_license`. -/
def pyPairs {α : Type} : List α → List (α × α)
  | [] => []
  | x :: xs => xs.map (fun y => (x, y)) ++ pyPairs xs

/-- Compatibility-issue collection loop of `_check_multi_license`: for every
ordered pair `i < j` of operands, record the pair and the reason when
`_check_compatibility` reports it incompatible. -/
def multiIssues (c : Checker) (licenses : List String) : List CompatIssue :=
  (pyPairs licenses).filterMap (fun p =>
    let r := check_compatibility c p.1 p.2
    if r.1 then none else some ⟨p.1, p.2, r.2⟩)

/-- Method `_check_multi_license` (AND operator).  Its operands come from a
split on `' AND '`, so they contain no `' AND '`; reached from
`check_license` (directly or through an OR operand) they contain no `' OR '`
either, hence the recursive `check_license` calls of the Python code resolve
to the single-license branch, which is inlined here.  All metadata dicts
built in this method are fresh, so no checker state is threaded. -/
def check_multi_license (c : Checker) (expr : String) : PolicyStatus × Metadata :=
  let licenses := (pySplitOn expr " AND ").map pyStrip
  let compatibility_issues := multiIssues c licenses
  if compatibility_issues ≠ [] then
    (PolicyStatus.incompatible,
      [("category", MVal.str "multi_licensed_incompatible"),
       ("risk_level", MVal.str "critical"),
       ("reason", MVal.str "License combination has compatibility issues"),
       ("compatibility_issues", MVal.issueList compatibility_issues),
       ("licenses", MVal.strList licenses)])
  else
    let statuses := licenses.map (fun lic => (lic, check_single_license c (normalize_license lic)))
    if statuses.any (fun t => t.2.1 == PolicyStatus.forbidden) then
      (PolicyStatus.forbidden,
        [("category", MVal.str "multi_licensed_forbidden"),
         ("risk_level", MVal.str "critical"),
         ("reason", MVal.str "At least one license in combination is forbidden"),
         ("licenses", MVal.strList licenses)])
    else if statuses.all (fun t => t.2.1 == PolicyStatus.approved) then
      (PolicyStatus.approved,
        [("category", MVal.str "multi_licensed_approved"),
         ("risk_level", MVal.str "low"),
         ("licenses", MVal.strList licenses),
         ("conditions", MVal.strList [])])
    else
      (PolicyStatus.conditional,
        [("category", MVal.str "multi_licensed_conditional"),
         ("risk_level", MVal.str "medium"),
         ("reason", MVal.str "Multi-license combination requires review"),
         ("licenses", MVal.strList licenses),
         ("approval_required", MVal.bool true)])

/-- The recursive `check_license` call made on each OR operand by
`_check_dual_license`.  Operands of a split on `' OR '` contain no `' OR '`,
so the dual branch of `check_license` is unreachable for them and is
omitted. -/
def check_license_noOr (c : Checker) (e : String) : PolicyStatus × Metadata :=
  let n := normalize_license e
  if strContains n " AND " then check_multi_license c n
  else check_single_license c n

/-- Fallback result of `_check_dual_license` (all options forbidden or
unknown, or an unrecognized `dual_license_strategy`). -/
def dualFallback (licenses : List String) : PolicyStatus × Metadata :=
  (PolicyStatus.forbidden,
    [("category", MVal.str "dual_licensed"),
     ("risk_level", MVal.str "high"),
     ("reason", MVal.str ("All license options are forbidden or unknown: " ++ pyListRepr licenses)),
     ("dual_license_options", MVal.strList licenses)])

/-- Method `_check_dual_license` (OR operator, strategy
`choose_most_permissive`): evaluate every operand, pick the first `APPROVED`
one, else the first `CONDITIONAL` one, else fall back to `FORBIDDEN`.
The Python code mutates the metadata dict of the chosen operand in place
(`metadata['dual_license_choice'] = lic`, `metadata['dual_license_options']
= licenses`); that dict is aliased with the checker's `approved_licenses`
(resp. `conditional_licenses`) entry exactly when the operand was resolved
by the single-license branch, i.e. when its normalized form contains no
`' AND '`, so in that case the same update is applied to the table. -/
def check_dual_license (c : Checker) (expr : String) : (PolicyStatus × Metadata) × Checker :=
  let licenses := (pySplitOn expr " OR ").map pyStrip
  let results := licenses.map (fun lic => (lic, check_license_noOr c lic))
  if c.dual_license_strategy = "choose_most_permissive" then
    match results.find? (fun r => r.2.1 == PolicyStatus.approved) with
    | some (lic, _, md) =>
      let md' := dictSet (dictSet md "dual_license_choice" (MVal.str lic))
        "dual_license_options" (MVal.strList licenses)
      let n := normalize_license lic
      let c' :=
        if strContains n " AND " then c
        else { c with approved_licenses := dictSet c.approved_licenses n md' }
      ((PolicyStatus.approved, md'), c')
    | none =>
      match results.find? (fun r => r.2.1 == PolicyStatus.conditional) with
      | some (lic, _, md) =>
        let md' := dictSet (dictSet md "dual_license_choice" (MVal.str lic))
          "dual_license_options" (MVal.strList licenses)
        let n := normalize_license lic
        let c' :=
          if strContains n " AND " then c
          else { c with conditional_licenses := dictSet c.conditional_licenses n md' }
        ((PolicyStatus.conditional, md'), c')
      | none => (dualFallback licenses, c)
  else (dualFallback licenses, c)

/-- Method `check_license` of `LicensePolicyChecker`: normalize, route OR
expressions to `_check_dual_license`, AND expressions to
`_check_multi_license`, and anything else to the single-license branch.
The checker state after the call is returned alongside the result (only the
dual branch can change it). -/
def check_license (c : Checker) (e : String) : (PolicyStatus × Metadata) × Checker :=
  let n := normalize_license e
  if strContains n " OR " then check_dual_license c n
  else if strContains n " AND " then (check_multi_license c n, c)
  else (check_single_license c n, c)

/-! ### Embedding of `smart_curation_engine.py` (`SmartCurationEngine`)

The engine aggregates evidence into `self.evidence_db`, a dict from package
id to a per-package evidence dict.  Python floats are modelled as `ℚ`. -/

/-- Value of `evidence_db[pkg_id]['licenses'][lic]`: the sources that
reported the license and its accumulated confidence. -/
structure LicEvidence where
  sources : List String
  confidence : ℚ
deriving DecidableEq, Repr

/-- Value of `evidence_db[pkg_id]`.  `policy_status` is `none` when the
loaded JSON had no `status` key (Python stores `None` there). -/
structure Evidence where
  policy_status : Option String
  licenses : List (String × LicEvidence)
  confidence : ℚ
  sources : List String
deriving DecidableEq, Repr

/-- The engine's `self.evidence_db`. -/
abbrev DB := List (String × Evidence)

/-- Modify the value at key `k` if present (Python mutates
`self.evidence_db[pkg_id]` in place, which is always present at that
point). -/
def dictModify {β : Type} (m : List (String × β)) (k : String) (f : β → β) :
    List (String × β) :=
  match dictGet m k with
  | some v => dictSet m k (f v)
  | none => m

/-- Method `_normalize_license` of `SmartCurationEngine` (NOT the same
mapping as the policy checker's `normalize_license`; no whitespace
stripping). -/
def normLicenseE (s : String) : String :=
  if s = "" then "NOASSERTION"
  else if s = "UNKNOWN" then "NOASSERTION"
  else if s = "NONE" then "NOASSERTION"
  else if s = "BSD License" then "BSD-3-Clause"
  else if s = "BSD" then "BSD-3-Clause"
  else if s = "Apache License 2.0" then "Apache-2.0"
  else if s = "Apache 2.0" then "Apache-2.0"
  else if s = "MIT License" then "MIT"
  else if s = "GNU GPL" then "GPL-3.0-or-later"
  else if s = "GPLv2" then "GPL-2.0-only"
  else if s = "GPLv3" then "GPL-3.0-only"
  else s

/-- Shared fresh-entry insertion of the `load_ort_results` /
`load_pypi_results` loops: `{'policy_status': 'UNKNOWN', 'licenses': {},
'confidence': 0, 'sources': []}` when the package id is new. -/
def ensureEntry (db : DB) (k : String) : DB :=
  match dictGet db k with
  | some _ => db
  | none => dictSet db k ⟨some "UNKNOWN", [], 0, []⟩

/-- The thrice-repeated evidence-accumulation pattern of the loaders:
create `licenses[key]` with `{'sources': [], 'confidence': 0}` if absent,
then append `source` to its source list and add `inc` to its confidence. -/
def bumpLicense (ev : Evidence) (key source : String) (inc : ℚ) : Evidence :=
  let lics :=
    match dictGet ev.licenses key with
    | some _ => ev.licenses
    | none => dictSet ev.licenses key ⟨[], 0⟩
  let cur := (dictGet lics key).getD ⟨[], 0⟩
  { ev with licenses := dictSet lics key ⟨cur.sources ++ [source], cur.confidence + inc⟩ }

/-- One record of the policy-checker JSON as read by `load_policy_results`
(`pkg.get('id')`, `pkg.get('status')`). -/
structure PolicyPackage where
  id : String
  status : Option String
deriving DecidableEq, Repr

/-- One package of the ORT analyzer result as read by `load_ort_results`. -/
structure OrtPackage where
  id : String
  declared_licenses : List String
  concluded_license : Option String
deriving DecidableEq, Repr

/-- One record of the PyPI fetch JSON as read by `load_pypi_results`. -/
structure PypiRecord where
  package_name : String
  version : String
  license_from_pypi : Option String
deriving DecidableEq, Repr

/-- Loop body of `load_policy_results`. -/
def loadPolicyOne (db : DB) (r : PolicyPackage) : DB :=
  let db₁ :=
    match dictGet db r.id with
    | none => dictSet db r.id ⟨r.status, [], 0, []⟩
    | some ev => dictSet db r.id { ev with policy_status := r.status }
  if r.status = some "APPROVED" then
    dictModify db₁ r.id (fun ev =>
      { ev with confidence := ev.confidence + 0.3,
                sources := ev.sources ++ ["policy_approved"] })
  else if r.status = some "FORBIDDEN" then
    dictModify db₁ r.id (fun ev =>
      { ev with confidence := 0,
                sources := ev.sources ++ ["policy_forbidden"] })
  else db₁

/-- Loop body of `load_ort_results`: declared licenses are stored raw
(+0.4 each), the concluded license — unless falsy or the literal
`'NOASSERTION'` — is normalized and stored (+0.5). -/
def loadOrtOne (db : DB) (r : OrtPackage) : DB :=
  let db₁ := ensureEntry db r.id
  let db₂ := r.declared_licenses.foldl
    (fun d lic => dictModify d r.id (fun ev => bumpLicense ev lic "ORT_declared" 0.4)) db₁
  match r.concluded_license with
  | none => db₂
  | some cl =>
    if cl ≠ "" ∧ cl ≠ "NOASSERTION" then
      dictModify db₂ r.id (fun ev => bumpLicense ev (normLicenseE cl) "ORT_concluded" 0.5)
    else db₂

/-- Loop body of `load_pypi_results`: unless the fetched value is falsy or
the literal `'Not found'`, it is normalized and stored (+0.3). -/
def loadPypiOne (db : DB) (r : PypiRecord) : DB :=
  let pkg_id := "PyPI::" ++ r.package_name ++ ":" ++ r.version
  let db₁ := ensureEntry db pkg_id
  match r.license_from_pypi with
  | none => db₁
  | some lf =>
    if lf ≠ "" ∧ lf ≠ "Not found" then
      dictModify db₁ pkg_id (fun ev => bumpLicense ev (normLicenseE lf) "PyPI_API" 0.3)
    else db₁

/-- One ingested evidence record, from any of the three structured
loaders. -/
inductive Event where
  | policyRec (r : PolicyPackage)
  | ortRec (r : OrtPackage)
  | pypiRec (r : PypiRecord)
deriving DecidableEq, Repr

/-- Dispatch of one ingestion step. -/
def applyEvent (db : DB) : Event → DB
  | .policyRec r => loadPolicyOne db r
  | .ortRec r => loadOrtOne db r
  | .pypiRec r => loadPypiOne db r

/-- State of `self.evidence_db` after ingesting a sequence of records into a
freshly constructed engine. -/
def ingest (events : List Event) : DB :=
  events.foldl applyEvent []

/-- Method `_is_license_approved`: the engine's policy reduced to the
`approved_licenses` section, a list of `(category, licenses)` pairs. -/
def is_license_approved (pol : List (String × List String)) (lic : String) : Bool :=
  pol.any (fun cd => cd.2.contains lic)

/-- One scored candidate of `_select_best_license`. -/
structure Candidate where
  license : String
  confidence : ℚ
  sources : List String
  approved : Bool
deriving DecidableEq, Repr

/-- Numeric value of a Python bool under comparison (`False < True`). -/
def bval (b : Bool) : ℚ := if b then 1 else 0

/-- Strict comparison of the sort keys `(x['approved'], x['confidence'])`
used by `candidates.sort(key=..., reverse=True)`. -/
def keyLt (a b : Candidate) : Prop :=
  bval a.approved < bval b.approved ∨
    (bval a.approved = bval b.approved ∧ a.confidence < b.confidence)

instance keyLtDec (a b : Candidate) : Decidable (keyLt a b) := by
  unfold keyLt
  infer_instance

/-- Stable descending insertion for `sortDesc`: a later element `x` is
placed after every element whose key is ≥ its own. -/
def insertDesc (x : Candidate) : List Candidate → List Candidate
  | [] => [x]
  | y :: ys => if keyLt x y then y :: insertDesc x ys else x :: y :: ys

/-- Model of `candidates.sort(key=lambda x: (x['approved'],
x['confidence']), reverse=True)`: a stable sort in descending key order.
(Any stable sort computes the same list as CPython's Timsort, since
stability and sortedness determine the output uniquely.) -/
def sortDesc : List Candidate → List Candidate
  | [] => []
  | x :: xs => insertDesc x (sortDesc xs)

/-- Rendering of `f"{q:.0%}"` (percentage with no decimals). -/
def pctString (q : ℚ) : String :=
  toString (round (q * 100)) ++ "%"

/-- Candidate construction loop of `_select_best_license`: skip
`NOASSERTION`, add +0.2 for policy approval, add +0.1·len(sources) when
there is more than one source, cap at 1.0. -/
def mkCandidates (pol : List (String × List String)) (lics : List (String × LicEvidence)) :
    List Candidate :=
  lics.filterMap (fun p =>
    if p.1 = "NOASSERTION" then none
    else
      let confidence₀ := p.2.confidence
      let sources := p.2.sources
      let is_approved := is_license_approved pol p.1
      let confidence₁ := if is_approved then confidence₀ + 0.2 else confidence₀
      let confidence₂ :=
        if sources.length > 1 then confidence₁ + 0.1 * (sources.length : ℚ) else confidence₁
      let confidence₃ := min 1 confidence₂
      some ⟨p.1, confidence₃, sources, is_approved⟩)

/-- Return value of `_select_best_license`. -/
structure Best where
  license : String
  confidence : ℚ
  sources : List String
  comment : String
deriving DecidableEq, Repr

/-- Method `_select_best_license` of `SmartCurationEngine`. -/
def select_best_license (pol : List (String × List String)) (ev : Evidence) : Option Best :=
  if ev.licenses = [] then none
  else
    let candidates := mkCandidates pol ev.licenses
    if candidates = [] then none
    else
      match sortDesc candidates with
      | [] => none
      | best :: _ =>
        let comment₁ := "License detected from " ++ String.intercalate ", " best.sources ++
          ". " ++ "Confidence: " ++ pctString best.confidence ++ ". "
        let comment₂ :=
          if best.confidence < 0.7 then comment₁ ++ "REQUIRES MANUAL VERIFICATION. "
          else comment₁
        let comment₃ :=
          if best.approved then comment₂ ++ "Approved by company policy."
          else comment₂ ++ "CHECK POLICY COMPLIANCE before applying."
        some ⟨best.license, best.confidence, best.sources, comment₃⟩

/-- One suggestion produced by `generate_curations`. -/
structure Curation where
  id : String
  concluded_license : String
  comment : String
  confidence : ℚ
  sources : List String
  requires_manual_review : Bool
deriving DecidableEq, Repr

/-- Loop body of `generate_curations` for one `evidence_db` entry: skip
policy-approved packages with confidence above 0.7, skip `FORBIDDEN`
packages entirely, and turn the best license (when one exists) into a
suggestion flagged for manual review when its confidence is below 0.7. -/
def curationOf (pol : List (String × List String)) (pe : String × Evidence) :
    Option Curation :=
  if pe.2.policy_status = some "APPROVED" ∧ pe.2.confidence > 0.7 then none
  else if pe.2.policy_status = some "FORBIDDEN" then none
  else
    match select_best_license pol pe.2 with
    | none => none
    | some best =>
      some ⟨pe.1, best.license, best.comment, best.confidence, best.sources,
        decide (best.confidence < 0.7)⟩

/-- Method `generate_curations`: one suggestion per remaining package, and
the sub-list with confidence below 0.7 as the manual-review queue
(`self.manual_review`). -/
def generate_curations (pol : List (String × List String)) (db : DB) :
    List Curation × List Curation :=
  let curations := db.filterMap (curationOf pol)
  (curations, curations.filter (fun cur => cur.requires_manual_review))

/-! ### Concrete sample states used by witnesses and counterexamples -/

/-- Sample metadata for a permissive approved license. -/
def mdPermissive : Metadata :=
  [("category", MVal.str "permissive"), ("risk_level", MVal.str "low"),
   ("auto_approve", MVal.bool true)]

/-- Sample metadata for a forbidden copyleft license. -/
def mdCopyleft : Metadata :=
  [("category", MVal.str "strong_copyleft"), ("risk_level", MVal.str "critical"),
   ("action", MVal.str "reject")]

/-- Sample checker state: MIT and Apache-2.0 approved, MPL-2.0 conditional,
GPL-3.0-only forbidden, one incompatibility rule, dual-license strategy
`choose_most_permissive`. -/
def cSample : Checker :=
  { approved_licenses := [("MIT", mdPermissive), ("Apache-2.0", mdPermissive)]
    conditional_licenses :=
      [("MPL-2.0", [("category", MVal.str "weak_copyleft"), ("risk_level", MVal.str "medium")])]
    forbidden_licenses := [("GPL-3.0-only", mdCopyleft)]
    dual_license_strategy := "choose_most_permissive"
    unknown_license_action := "manual_review"
    license_compatibility := [⟨"MIT AND GPL-3.0-only", false, "Copyleft conflict"⟩] }

/-- Checker state with the license id `X` listed in both the approved and
the forbidden bucket. -/
def cDoubleListed : Checker :=
  { approved_licenses := [("X", mdPermissive)]
    conditional_licenses := []
    forbidden_licenses := [("X", mdCopyleft)]
    dual_license_strategy := "choose_most_permissive"
    unknown_license_action := "manual_review"
    license_compatibility := [] }

/-! ### Claim C1 -/

/-- Claim C1, counterexample.  The claim asserts that a license id that is
in the forbidden bucket is classified `FORBIDDEN` regardless of the other
buckets it also appears in.  In the code, `check_license` tests the
approved table first, so an id listed both as approved and as forbidden is
classified `APPROVED`, not `FORBIDDEN`. -/
theorem C1_counterexample :
    (dictGet cDoubleListed.forbidden_licenses "X").isSome = true ∧
    (check_license cDoubleListed "X").1.1 = PolicyStatus.approved ∧
    PolicyStatus.approved ≠ PolicyStatus.forbidden := by
  decide

/-- Claim C1, amended.  For a single-license expression (no `' OR '` and no
`' AND '` in the normalized form), `check_license` leaves the checker
unchanged and resolves multiple bucket membership by the fixed priority
order approved > conditional > forbidden (first match in code order), with
`UNKNOWN` when the id is in no bucket. -/
theorem C1_single_precedence (c : Checker) (e : String)
    (hOr : strContains (normalize_license e) " OR " = false)
    (hAnd : strContains (normalize_license e) " AND " = false) :
    (check_license c e).2 = c ∧
    (check_license c e).1.1 =
      (if (dictGet c.approved_licenses (normalize_license e)).isSome then
        PolicyStatus.approved
      else if (dictGet c.conditional_licenses (normalize_license e)).isSome then
        PolicyStatus.conditional
      else if (dictGet c.forbidden_licenses (normalize_license e)).isSome then
        PolicyStatus.forbidden
      else PolicyStatus.unknown) := by
  unfold check_license
  simp only [hOr, hAnd, Bool.false_eq_true, if_false]
  refine ⟨by trivial, ?_⟩
  unfold check_single_license
  cases hA : dictGet c.approved_licenses (normalize_license e) <;>
    cases hC : dictGet c.conditional_licenses (normalize_license e) <;>
      cases hF : dictGet c.forbidden_licenses (normalize_license e) <;>
        simp [hA, hC, hF]

/-- Claim C1, witness: the amended precedence theorem applied to the
double-listed id `X`. -/
theorem C1_single_precedence_witness :
    strContains (normalize_license "X") " OR " = false ∧
    (check_license cDoubleListed "X").1.1 = PolicyStatus.approved := by
  have h := C1_single_precedence cDoubleListed "X" (by decide) (by decide)
  refine ⟨by decide, ?_⟩
  rw [h.2]
  decide

/-! ### Claim C8 -/

/-- Helper for C8: scanning the compatibility matrix is symmetric in the
two license ids, because the match condition of every rule is. -/
theorem lookupCombo_symm (l1 l2 : String) (rules : List CompatRule) :
    lookupCombo l1 l2 rules = lookupCombo l2 l1 rules := by
  induction rules with
  | nil => rfl
  | cons r rest ih =>
    unfold lookupCombo
    by_cases h : r.combination = l1 ++ " AND " ++ l2 ∨ r.combination = l2 ++ " AND " ++ l1
    · have h2 := Or.symm h
      simp [h, h2]
    · have h2 : ¬(r.combination = l2 ++ " AND " ++ l1 ∨ r.combination = l1 ++ " AND " ++ l2) :=
        fun hh => h (Or.symm hh)
      simp [h, h2, ih]

/-- Helper for C8: with no matching rule, the scan returns the
assume-compatible default. -/
theorem lookupCombo_default (l1 l2 : String) (rules : List CompatRule)
    (h : ∀ r ∈ rules, r.combination ≠ l1 ++ " AND " ++ l2 ∧
      r.combination ≠ l2 ++ " AND " ++ l1) :
    lookupCombo l1 l2 rules = (true, "Not explicitly listed as incompatible") := by
  induction rules with
  | nil => rfl
  | cons r rest ih =>
    have hr := h r (List.mem_cons_self r rest)
    unfold lookupCombo
    simp only [hr.1, hr.2, or_self, if_false]
    exact ih (fun r' hr' => h r' (List.mem_cons_of_mem r hr'))

/-- Claim C8: `_check_compatibility` is order-insensitive in its two
arguments, and every pair with no explicit rule in the policy's
compatibility matrix is assumed compatible, with a reason string. -/
theorem C8_compatibility (c : Checker) (l1 l2 : String) :
    check_compatibility c l1 l2 = check_compatibility c l2 l1 ∧
    ((∀ r ∈ c.license_compatibility,
        r.combination ≠ l1 ++ " AND " ++ l2 ∧ r.combination ≠ l2 ++ " AND " ++ l1) →
      check_compatibility c l1 l2 = (true, "Not explicitly listed as incompatible")) :=
  ⟨lookupCombo_symm l1 l2 c.license_compatibility,
   fun h => lookupCombo_default l1 l2 c.license_compatibility h⟩

/-- Claim C8, witness: applied to the pair (Apache-2.0, MPL-2.0), which has
no rule in `cSample`'s compatibility matrix. -/
theorem C8_compatibility_witness :
    check_compatibility cSample "Apache-2.0" "MPL-2.0" =
      (true, "Not explicitly listed as incompatible") := by
  refine (C8_compatibility cSample "Apache-2.0" "MPL-2.0").2 ?_
  decide

/-! ### Claim C10 -/

/-- Claim C10: in an expression containing both `' OR '` and `' AND '`,
`check_license` splits on `' OR '` first (OR is the loosest-binding
operator), and every operand whose normalized form contains `' AND '` is
evaluated as an AND-expression by `_check_multi_license` inside the OR
evaluation, instead of the whole expression being rejected. -/
theorem C10_or_binds_loosest (c : Checker) (e : String)
    (hOr : strContains (normalize_license e) " OR " = true)
    (hAnd : strContains (normalize_license e) " AND " = true) :
    check_license c e = check_dual_license c (normalize_license e) ∧
    (∀ p : String, strContains (normalize_license p) " AND " = true →
      check_license_noOr c p = check_multi_license c (normalize_license p)) := by
  constructor
  · unfold check_license
    simp only [hOr, if_true]
  · intro p hp
    unfold check_license_noOr
    simp only [hp, if_true]

/-- Claim C10, witness: the mixed expression
`"GPL-3.0-only AND MIT OR MIT"` is routed to the dual-license branch, its
first operand `"GPL-3.0-only AND MIT"` is evaluated as an AND-expression,
and the overall result is `APPROVED` via the second operand. -/
theorem C10_or_binds_loosest_witness :
    strContains (normalize_license "GPL-3.0-only AND MIT OR MIT") " OR " = true ∧
    check_license cSample "GPL-3.0-only AND MIT OR MIT" =
      check_dual_license cSample (normalize_license "GPL-3.0-only AND MIT OR MIT") ∧
    check_license_noOr cSample "GPL-3.0-only AND MIT" =
      check_multi_license cSample (normalize_license "GPL-3.0-only AND MIT") ∧
    (check_license cSample "GPL-3.0-only AND MIT OR MIT").1.1 = PolicyStatus.approved := by
  have h := C10_or_binds_loosest cSample "GPL-3.0-only AND MIT OR MIT"
    (by decide) (by decide)
  exact ⟨by decide, h.1, h.2 "GPL-3.0-only AND MIT" (by decide), by decide⟩

/-! ### Claim C4 -/

/-- Claim C4: on an OR-expression (under the policy's
`choose_most_permissive` strategy), `check_license` evaluates every operand
and returns the first operand classified `APPROVED` (recording it as
`dual_license_choice`); failing that, the first operand classified
`CONDITIONAL`; failing that, `FORBIDDEN` with a reason stating that all
options are forbidden or unknown. -/
theorem C4_or_choice (c : Checker) (e : String)
    (hstrat : c.dual_license_strategy = "choose_most_permissive")
    (hOr : strContains (normalize_license e) " OR " = true) :
    ∀ ops results,
      ops = (pySplitOn (normalize_license e) " OR ").map pyStrip →
      results = ops.map (fun lic => (lic, check_license_noOr c lic)) →
      ((∀ lic st md,
        results.find? (fun r => r.2.1 == PolicyStatus.approved) = some (lic, st, md) →
        (check_license c e).1.1 = PolicyStatus.approved ∧
        dictGet (check_license c e).1.2 "dual_license_choice" = some (MVal.str lic) ∧
        dictGet (check_license c e).1.2 "dual_license_options" = some (MVal.strList ops)) ∧
      (results.find? (fun r => r.2.1 == PolicyStatus.approved) = none →
        ∀ lic st md,
        results.find? (fun r => r.2.1 == PolicyStatus.conditional) = some (lic, st, md) →
        (check_license c e).1.1 = PolicyStatus.conditional ∧
        dictGet (check_license c e).1.2 "dual_license_choice" = some (MVal.str lic)) ∧
      (results.find? (fun r => r.2.1 == PolicyStatus.approved) = none →
        results.find? (fun r => r.2.1 == PolicyStatus.conditional) = none →
        (check_license c e).1.1 = PolicyStatus.forbidden ∧
        dictGet (check_license c e).1.2 "reason" =
          some (MVal.str ("All license options are forbidden or unknown: " ++ pyListRepr ops)))) := by
  intro ops results hops hres
  have hroute : check_license c e = check_dual_license c (normalize_license e) := by
    unfold check_license
    simp only [hOr, if_true]
  rw [hroute]
  unfold check_dual_license
  rw [hstrat, if_pos rfl, ← hops, ← hres]
  refine ⟨?_, ?_, ?_⟩
  · intro lic st md hfind
    rw [hfind]
    refine ⟨rfl, ?_, ?_⟩
    · show dictGet (dictSet (dictSet md "dual_license_choice" (MVal.str lic))
        "dual_license_options" (MVal.strList ops)) "dual_license_choice" = some (MVal.str lic)
      rw [dictGet_dictSet_ne _ _ _ _ (by decide), dictGet_dictSet_self]
    · show dictGet (dictSet (dictSet md "dual_license_choice" (MVal.str lic))
        "dual_license_options" (MVal.strList ops)) "dual_license_options" =
        some (MVal.strList ops)
      rw [dictGet_dictSet_self]
  · intro hnone lic st md hfind
    rw [hnone, hfind]
    refine ⟨rfl, ?_⟩
    show dictGet (dictSet (dictSet md "dual_license_choice" (MVal.str lic))
      "dual_license_options" (MVal.strList ops)) "dual_license_choice" = some (MVal.str lic)
    rw [dictGet_dictSet_ne _ _ _ _ (by decide), dictGet_dictSet_self]
  · intro hnone₁ hnone₂
    rw [hnone₁, hnone₂]
    exact ⟨rfl, by simp [dualFallback, dictGet]⟩

/-- Claim C4, witness: with MIT approved and GPL-3.0-only forbidden,
`check_license("MIT OR GPL-3.0-only")` returns `APPROVED` with chosen
sub-expression `MIT`. -/
theorem C4_or_choice_witness :
    cSample.dual_license_strategy = "choose_most_permissive" ∧
    (check_license cSample "MIT OR GPL-3.0-only").1.1 = PolicyStatus.approved ∧
    dictGet (check_license cSample "MIT OR GPL-3.0-only").1.2 "dual_license_choice" =
      some (MVal.str "MIT") := by
  have h := C4_or_choice cSample "MIT OR GPL-3.0-only" (by decide) (by decide)
    ((pySplitOn (normalize_license "MIT OR GPL-3.0-only") " OR ").map pyStrip)
    (((pySplitOn (normalize_license "MIT OR GPL-3.0-only") " OR ").map pyStrip).map
      (fun lic => (lic, check_license_noOr cSample lic)))
    rfl rfl
  have h2 := h.1 "MIT" PolicyStatus.approved mdPermissive (by decide)
  exact ⟨by decide, h2.1, h2.2.1⟩

/-! ### Claim C5 -/

/-- Claim C5: on an AND-expression, `check_license` checks compatibility of
every unordered operand pair; any incompatible pair makes the result
`INCOMPATIBLE` with risk `critical`, listing exactly the offending pairs;
with no incompatible pair, any `FORBIDDEN` operand gives `FORBIDDEN`, all
operands `APPROVED` gives `APPROVED`, and otherwise the result is
`CONDITIONAL`.  The checker state is unchanged. -/
theorem C5_and_combination (c : Checker) (e : String)
    (hOr : strContains (normalize_license e) " OR " = false)
    (hAnd : strContains (normalize_license e) " AND " = true) :
    ∀ ops,
      ops = (pySplitOn (normalize_license e) " AND ").map pyStrip →
      ((check_license c e).2 = c ∧
      (check_license c e).1 = check_multi_license c (normalize_license e) ∧
      (multiIssues c ops = [] ↔
        ∀ p ∈ pyPairs ops, (check_compatibility c p.1 p.2).1 = true) ∧
      (∀ a b reason, (⟨a, b, reason⟩ : CompatIssue) ∈ multiIssues c ops ↔
        ((a, b) ∈ pyPairs ops ∧ check_compatibility c a b = (false, reason))) ∧
      (multiIssues c ops ≠ [] →
        (check_license c e).1.1 = PolicyStatus.incompatible ∧
        dictGet (check_license c e).1.2 "risk_level" = some (MVal.str "critical") ∧
        dictGet (check_license c e).1.2 "compatibility_issues" =
          some (MVal.issueList (multiIssues c ops))) ∧
      (multiIssues c ops = [] →
        ((∃ l ∈ ops, (check_single_license c (normalize_license l)).1 = PolicyStatus.forbidden) →
          (check_license c e).1.1 = PolicyStatus.forbidden) ∧
        ((∀ l ∈ ops, (check_single_license c (normalize_license l)).1 = PolicyStatus.approved) →
          (check_license c e).1.1 = PolicyStatus.approved) ∧
        ((¬ ∃ l ∈ ops,
            (check_single_license c (normalize_license l)).1 = PolicyStatus.forbidden) →
          (¬ ∀ l ∈ ops,
            (check_single_license c (normalize_license l)).1 = PolicyStatus.approved) →
          (check_license c e).1.1 = PolicyStatus.conditional))) := by
  intro ops hops
  have hroute : check_license c e = (check_multi_license c (normalize_license e), c) := by
    unfold check_license
    simp only [hOr, hAnd, Bool.false_eq_true, if_false, if_true]
  have hany : ∀ st : PolicyStatus,
      (ops.map (fun lic => (lic, check_single_license c (normalize_license lic)))).any
        (fun t => t.2.1 == st) = true ↔
      ∃ l ∈ ops, (check_single_license c (normalize_license l)).1 = st := by
    intro st
    simp [List.any_eq_true]
  have hall :
      (ops.map (fun lic => (lic, check_single_license c (normalize_license lic)))).all
        (fun t => t.2.1 == PolicyStatus.approved) = true ↔
      ∀ l ∈ ops, (check_single_license c (normalize_license l)).1 = PolicyStatus.approved := by
    simp [List.all_eq_true]
  refine ⟨by rw [hroute], by rw [hroute], ?_, ?_, ?_, ?_⟩
  · constructor
    · intro hnil p hp
      by_contra hfalse
      have : (⟨p.1, p.2, (check_compatibility c p.1 p.2).2⟩ : CompatIssue) ∈ multiIssues c ops := by
        unfold multiIssues
        refine List.mem_filterMap.mpr ⟨p, hp, ?_⟩
        simp only [Bool.not_eq_true] at hfalse
        simp [hfalse]
      rw [hnil] at this
      exact absurd this (List.not_mem_nil _)
    · intro hcompat
      unfold multiIssues
      refine List.filterMap_eq_nil_iff.mpr ?_
      intro p hp
      simp [hcompat p hp]
  · intro a b reason
    unfold multiIssues
    rw [List.mem_filterMap]
    constructor
    · rintro ⟨p, hp, hsome⟩
      obtain ⟨pa, pb⟩ := p
      by_cases hc : (check_compatibility c pa pb).1
      · simp [hc] at hsome
      · simp only [Bool.not_eq_true] at hc
        simp only [hc, Bool.false_eq_true, if_false, Option.some.injEq,
          CompatIssue.mk.injEq] at hsome
        obtain ⟨h1, h2, h3⟩ := hsome
        subst h1; subst h2
        refine ⟨hp, ?_⟩
        have hsplit : check_compatibility c pa pb =
            ((check_compatibility c pa pb).1, (check_compatibility c pa pb).2) := rfl
        rw [hsplit, hc, h3]
    · rintro ⟨hp, hcab⟩
      refine ⟨(a, b), hp, ?_⟩
      simp [hcab]
  · intro hne
    rw [hroute]
    have hne' : (multiIssues c ops ≠ []) = True := by simp [hne]
    unfold check_multi_license
    rw [← hops]
    simp only [hne', if_true, ite_true]
    exact ⟨by trivial, by simp [dictGet], by simp [dictGet]⟩
  · intro hnil
    rw [hroute]
    unfold check_multi_license
    rw [← hops]
    simp only [hnil, ne_eq, not_true_eq_false, if_false]
    refine ⟨?_, ?_, ?_⟩
    · intro hforb
      rw [← hany PolicyStatus.forbidden] at hforb
      simp only [hforb, if_true]
    · intro happr
      rw [← hall] at happr
      by_cases hforb : (ops.map (fun lic =>
          (lic, check_single_license c (normalize_license lic)))).any
          (fun t => t.2.1 == PolicyStatus.forbidden) = true
      · exfalso
        obtain ⟨l, hl, hfl⟩ := (hany PolicyStatus.forbidden).mp hforb
        have := List.all_eq_true.mp happr _ (List.mem_map_of_mem _ hl)
        simp only [beq_iff_eq] at this
        rw [hfl] at this
        exact absurd this (by decide)
      · simp only [Bool.not_eq_true] at hforb
        simp only [hforb, Bool.false_eq_true, if_false, happr, if_true]
    · intro hnforb hnappr
      rw [← hany PolicyStatus.forbidden] at hnforb
      rw [← hall] at hnappr
      simp only [Bool.not_eq_true] at hnforb hnappr
      simp only [hnforb, hnappr, Bool.false_eq_true, if_false]

/-- Claim C5, witness: `"MIT AND GPL-3.0-only"` hits the matrix rule of
`cSample` and is classified `INCOMPATIBLE` with the offending pair
listed. -/
theorem C5_and_combination_witness :
    multiIssues cSample ["MIT", "GPL-3.0-only"] ≠ [] ∧
    (check_license cSample "MIT AND GPL-3.0-only").1.1 = PolicyStatus.incompatible ∧
    dictGet (check_license cSample "MIT AND GPL-3.0-only").1.2 "compatibility_issues" =
      some (MVal.issueList (multiIssues cSample ["MIT", "GPL-3.0-only"])) := by
  have h := C5_and_combination cSample "MIT AND GPL-3.0-only" (by decide) (by decide)
    ["MIT", "GPL-3.0-only"] (by decide)
  have h5 := h.2.2.2.2.1 (by decide)
  exact ⟨by decide, h5.1, h5.2.2⟩

/-! ### Engine helper lemmas -/

/-- Values of an association list with duplicate-free keys are determined
by their key. -/
theorem keyUniq {β : Type} {m : List (String × β)} (hnd : (m.map Prod.fst).Nodup)
    {p : String} {a b : β} (ha : (p, a) ∈ m) (hb : (p, b) ∈ m) : a = b := by
  induction m with
  | nil => simp at ha
  | cons hd tl ih =>
    simp only [List.map_cons, List.nodup_cons] at hnd
    rcases List.mem_cons.mp ha with h1 | h1 <;> rcases List.mem_cons.mp hb with h2 | h2
    · exact congrArg Prod.snd (h1.trans h2.symm)
    · exfalso
      apply hnd.1
      rw [← h1]
      exact List.mem_map.mpr ⟨(p, b), h2, rfl⟩
    · exfalso
      apply hnd.1
      rw [← h2]
      exact List.mem_map.mpr ⟨(p, a), h1, rfl⟩
    · exact ih hnd.2 h1 h2

/-- Inversion of one `generate_curations` loop step: a produced suggestion
carries the package id of its entry, the entry was not `FORBIDDEN`, and the
suggestion's confidence is the selected best confidence. -/
theorem curationOf_some (pol : List (String × List String)) (pe : String × Evidence)
    (cur : Curation) (h : curationOf pol pe = some cur) :
    cur.id = pe.1 ∧ pe.2.policy_status ≠ some "FORBIDDEN" ∧
    ∃ best, select_best_license pol pe.2 = some best ∧
      cur.confidence = best.confidence := by
  unfold curationOf at h
  by_cases h1 : pe.2.policy_status = some "APPROVED" ∧ pe.2.confidence > 0.7
  · simp [h1] at h
  · rw [if_neg h1] at h
    by_cases h2 : pe.2.policy_status = some "FORBIDDEN"
    · simp [h2] at h
    · rw [if_neg h2] at h
      cases hsel : select_best_license pol pe.2 with
      | none => rw [hsel] at h; simp at h
      | some best =>
        rw [hsel] at h
        simp only [Option.some.injEq] at h
        subst h
        exact ⟨rfl, h2, best, rfl, rfl⟩

/-- Every suggestion (and every manual-review entry) comes from an entry of
the evidence db via `curationOf`. -/
theorem generate_curations_mem (pol : List (String × List String)) (db : DB)
    (cur : Curation) (h : cur ∈ (generate_curations pol db).1) :
    ∃ pe ∈ db, curationOf pol pe = some cur := by
  unfold generate_curations at h
  exact List.mem_filterMap.mp h

/-! ### Claim C9 -/

/-- Claim C9: a package whose recorded policy status is `FORBIDDEN` is
excluded from the suggestion list of `generate_curations` entirely, and
hence also from the manual-review queue derived from it. -/
theorem C9_forbidden_excluded (pol : List (String × List String)) (db : DB)
    (hnd : (db.map Prod.fst).Nodup) (p : String) (ev : Evidence)
    (hmem : (p, ev) ∈ db) (hforb : ev.policy_status = some "FORBIDDEN") :
    (∀ cur ∈ (generate_curations pol db).1, cur.id ≠ p) ∧
    (∀ cur ∈ (generate_curations pol db).2, cur.id ≠ p) := by
  have h1 : ∀ cur ∈ (generate_curations pol db).1, cur.id ≠ p := by
    intro cur hcur hid
    obtain ⟨pe, hpe, hsome⟩ := generate_curations_mem pol db cur hcur
    obtain ⟨hcid, hnf, _⟩ := curationOf_some pol pe cur hsome
    obtain ⟨q, ev'⟩ := pe
    have hq : q = p := by rw [← hid, hcid]
    subst hq
    have hev : ev' = ev := keyUniq hnd hpe hmem
    rw [hev] at hnf
    exact hnf hforb
  refine ⟨h1, fun cur hcur => h1 cur ?_⟩
  exact List.mem_of_mem_filter hcur

/-- Sample evidence entry recording a forbidden package. -/
def evForbidden : Evidence :=
  { policy_status := some "FORBIDDEN"
    licenses := [("GPL-3.0-only", ⟨["ORT_declared"], 0.4⟩)]
    confidence := 0
    sources := ["policy_forbidden"] }

/-- Sample evidence entry for an unknown package with one MIT candidate. -/
def evMitPkg : Evidence :=
  { policy_status := some "UNKNOWN"
    licenses := [("MIT", ⟨["PyPI_API"], 0.3⟩)]
    confidence := 0
    sources := [] }

/-- Claim C9, witness: in a two-package db, the forbidden package `pkgF`
never appears among the generated suggestions. -/
theorem C9_forbidden_excluded_witness :
    ((generate_curations [] [("pkgF", evForbidden), ("pkgM", evMitPkg)]).1.all
      (fun cur => cur.id != "pkgF")) = true := by
  have h := C9_forbidden_excluded [] [("pkgF", evForbidden), ("pkgM", evMitPkg)]
    (by decide) "pkgF" evForbidden (List.Mem.head _) (by decide)
  refine List.all_eq_true.mpr ?_
  intro cur hcur
  exact bne_iff_ne.mpr (h.1 cur hcur)

/-! ### Claim C6 -/

/-- PyPI record reporting `NOASSERTION` as the fetched license. -/
def rNoassert : PypiRecord :=
  { package_name := "foo", version := "1.0", license_from_pypi := some "NOASSERTION" }

/-- Claim C6, counterexample.  The claim asserts that `NOASSERTION` values
are dropped at evidence-ingestion time and never stored as candidates.  In
the code, `load_pypi_results` only filters falsy values and the literal
`'Not found'`, so a fetched `'NOASSERTION'` IS stored as a license
candidate in the aggregator state. -/
theorem C6_counterexample :
    (dictGet (loadPypiOne [] rNoassert) "PyPI::foo:1.0").map
      (fun ev => (dictGet ev.licenses "NOASSERTION").isSome) = some true := by
  decide

/-- With only `NOASSERTION` candidates, the candidate loop of
`_select_best_license` filters everything out. -/
theorem mkCandidates_eq_nil (pol : List (String × List String))
    (lics : List (String × LicEvidence))
    (h : ∀ l d, (l, d) ∈ lics → l = "NOASSERTION") :
    mkCandidates pol lics = [] := by
  unfold mkCandidates
  refine List.filterMap_eq_nil_iff.mpr ?_
  intro p hp
  obtain ⟨l, d⟩ := p
  have := h l d hp
  simp [this]

/-- With only `NOASSERTION` candidates, `_select_best_license` returns
`None`. -/
theorem select_best_license_none (pol : List (String × List String)) (ev : Evidence)
    (h : ∀ l d, (l, d) ∈ ev.licenses → l = "NOASSERTION") :
    select_best_license pol ev = none := by
  unfold select_best_license
  by_cases hnil : ev.licenses = []
  · simp [hnil]
  · rw [if_neg hnil]
    simp [mkCandidates_eq_nil pol ev.licenses h]

/-- Ingesting PyPI records whose fetched license is skipped or normalizes
to `NOASSERTION` only ever stores `NOASSERTION` license candidates. -/
theorem loadPypi_noassert_invariant (recs : List PypiRecord) (db : DB)
    (hdb : ∀ p ev, (p, ev) ∈ db → ∀ l d, (l, d) ∈ ev.licenses → l = "NOASSERTION")
    (hrecs : ∀ r ∈ recs, ∀ s, r.license_from_pypi = some s →
      s = "" ∨ s = "Not found" ∨ normLicenseE s = "NOASSERTION") :
    ∀ p ev, (p, ev) ∈ recs.foldl loadPypiOne db →
      ∀ l d, (l, d) ∈ ev.licenses → l = "NOASSERTION" := by
  induction recs generalizing db with
  | nil => exact hdb
  | cons r rest ih =>
    simp only [List.foldl_cons]
    refine ih (loadPypiOne db r) ?_ (fun r' hr' => hrecs r' (List.mem_cons_of_mem r hr'))
    -- one `loadPypiOne` step preserves the invariant
    intro p ev hmem l d hl
    have hens : ∀ p' ev', (p', ev') ∈ ensureEntry db ("PyPI::" ++ r.package_name ++ ":" ++ r.version) →
        ∀ l' d', (l', d') ∈ ev'.licenses → l' = "NOASSERTION" := by
      intro p' ev' hmem' l' d' hl'
      unfold ensureEntry at hmem'
      cases hdg : dictGet db ("PyPI::" ++ r.package_name ++ ":" ++ r.version) with
      | some v => rw [hdg] at hmem'; exact hdb p' ev' hmem' l' d' hl'
      | none =>
        rw [hdg] at hmem'
        rcases mem_dictSet _ _ _ _ hmem' with h' | h'
        · obtain ⟨h1, h2⟩ := Prod.mk.injEq _ _ _ _ ▸ h'
          rw [h2] at hl'
          simp at hl'
        · exact hdb p' ev' h' l' d' hl'
    unfold loadPypiOne at hmem
    cases hlic : r.license_from_pypi with
    | none =>
      rw [hlic] at hmem
      exact hens p ev hmem l d hl
    | some lf =>
      rw [hlic] at hmem
      dsimp only at hmem
      by_cases hcond : lf ≠ "" ∧ lf ≠ "Not found"
      · rw [if_pos hcond] at hmem
        have hnorm : normLicenseE lf = "NOASSERTION" := by
          rcases hrecs r (List.mem_cons_self r rest) lf hlic with h' | h' | h'
          · exact absurd h' hcond.1
          · exact absurd h' hcond.2
          · exact h'
        unfold dictModify at hmem
        cases hdg : dictGet (ensureEntry db ("PyPI::" ++ r.package_name ++ ":" ++ r.version))
            ("PyPI::" ++ r.package_name ++ ":" ++ r.version) with
        | none => rw [hdg] at hmem; exact hens p ev hmem l d hl
        | some ev₀ =>
          rw [hdg] at hmem
          rcases mem_dictSet _ _ _ _ hmem with h' | h'
          · -- the modified entry: its licenses are those of `ev₀` plus the
            -- (NOASSERTION) key that was bumped
            obtain ⟨h1, h2⟩ := Prod.mk.injEq _ _ _ _ ▸ h'
            have hev₀ : ∀ l' d', (l', d') ∈ ev₀.licenses → l' = "NOASSERTION" :=
              hens _ ev₀ (dictGet_eq_some_mem _ _ _ hdg)
            rw [h2] at hl
            unfold bumpLicense at hl
            simp only at hl
            rcases mem_dictSet _ _ _ _ hl with h'' | h''
            · obtain ⟨hh1, _⟩ := Prod.mk.injEq _ _ _ _ ▸ h''
              rw [hh1, hnorm]
            · cases hdg2 : dictGet ev₀.licenses (normLicenseE lf) with
              | some v => rw [hdg2] at h''; exact hev₀ l d h''
              | none =>
                rw [hdg2] at h''
                rcases mem_dictSet _ _ _ _ h'' with h3 | h3
                · obtain ⟨hh1, _⟩ := Prod.mk.injEq _ _ _ _ ▸ h3
                  rw [hh1, hnorm]
                · exact hev₀ l d h3
          · exact hens p ev h' l d hl
      · rw [if_neg hcond] at hmem
        exact hens p ev hmem l d hl

/-- Claim C6, amended.  `NOASSERTION` candidates can be stored in the
aggregator state at ingestion time (only falsy values, PyPI `'Not found'`
and the literal ORT concluded `'NOASSERTION'` are skipped), but the
selector skips them: an evidence entry whose candidates are all
`NOASSERTION` yields no best license and hence (in a db with
duplicate-free package ids) no suggestion for that package; in particular
ingesting only such PyPI records yields an empty suggestion list. -/
theorem C6_noassertion_selection (pol : List (String × List String)) (db : DB)
    (hnd : (db.map Prod.fst).Nodup) (p : String) (ev : Evidence)
    (hmem : (p, ev) ∈ db)
    (hno : ∀ l d, (l, d) ∈ ev.licenses → l = "NOASSERTION") :
    select_best_license pol ev = none ∧
    (∀ cur ∈ (generate_curations pol db).1, cur.id ≠ p) ∧
    (∀ recs : List PypiRecord,
      (∀ r ∈ recs, ∀ s, r.license_from_pypi = some s →
        s = "" ∨ s = "Not found" ∨ normLicenseE s = "NOASSERTION") →
      (generate_curations pol (recs.foldl loadPypiOne [])).1 = []) := by
  refine ⟨select_best_license_none pol ev hno, ?_, ?_⟩
  · intro cur hcur hid
    obtain ⟨pe, hpe, hsome⟩ := generate_curations_mem pol db cur hcur
    obtain ⟨hcid, _, best, hbest, _⟩ := curationOf_some pol pe cur hsome
    obtain ⟨q, ev'⟩ := pe
    have hq : q = p := by rw [← hid, hcid]
    subst hq
    have hev : ev' = ev := keyUniq hnd hpe hmem
    rw [hev, select_best_license_none pol ev hno] at hbest
    exact Option.noConfusion hbest
  · intro recs hrecs
    unfold generate_curations
    refine List.filterMap_eq_nil_iff.mpr ?_
    intro pe hpe
    obtain ⟨q, ev'⟩ := pe
    have hno' : ∀ l d, (l, d) ∈ ev'.licenses → l = "NOASSERTION" :=
      loadPypi_noassert_invariant recs [] (by simp) hrecs q ev' hpe
    unfold curationOf
    by_cases h1 : ev'.policy_status = some "APPROVED" ∧ ev'.confidence > 0.7
    · simp [h1]
    · rw [if_neg h1]
      by_cases h2 : ev'.policy_status = some "FORBIDDEN"
      · simp [h2]
      · rw [if_neg h2, select_best_license_none pol ev' hno']

/-- Claim C6, witness: the amended theorem applied to a two-package db
whose first package only carries a `NOASSERTION` candidate, and to the
concrete all-`NOASSERTION` PyPI ingestion `[rNoassert]`. -/
theorem C6_noassertion_selection_witness :
    select_best_license []
      ⟨some "UNKNOWN", [("NOASSERTION", ⟨["PyPI_API"], 0.3⟩)], 0, []⟩ = none ∧
    (generate_curations [] ([rNoassert].foldl loadPypiOne [])).1 = [] := by
  have h := C6_noassertion_selection []
    [("pkgN", ⟨some "UNKNOWN", [("NOASSERTION", ⟨["PyPI_API"], 0.3⟩)], 0, []⟩),
     ("pkgM", evMitPkg)]
    (by decide) "pkgN" ⟨some "UNKNOWN", [("NOASSERTION", ⟨["PyPI_API"], 0.3⟩)], 0, []⟩
    (List.Mem.head _)
    (by intro l d hl; simp at hl; exact hl.1)
  refine ⟨h.1, h.2.2 [rNoassert] ?_⟩
  intro r hr s hs
  simp at hr
  rw [hr] at hs
  simp [rNoassert] at hs
  subst hs
  decide

/-! ### Claim C7 -/

/-- Invariant: every accumulated per-license confidence in the evidence db
is nonnegative (all ingestion increments are). -/
def NonnegDB (db : DB) : Prop :=
  ∀ p ev, (p, ev) ∈ db → ∀ l d, (l, d) ∈ ev.licenses → 0 ≤ d.confidence

/-- A nonnegative increment keeps all accumulated confidences
nonnegative. -/
theorem bumpLicense_nonneg (ev : Evidence) (key source : String) (inc : ℚ)
    (hev : ∀ l d, (l, d) ∈ ev.licenses → 0 ≤ d.confidence) (hinc : 0 ≤ inc) :
    ∀ l d, (l, d) ∈ (bumpLicense ev key source inc).licenses → 0 ≤ d.confidence := by
  intro l d hl
  unfold bumpLicense at hl
  dsimp only at hl
  cases hdg : dictGet ev.licenses key with
  | some v =>
    simp only [hdg, Option.getD_some] at hl
    rcases mem_dictSet _ _ _ _ hl with h | h
    · obtain ⟨_, h2⟩ := Prod.mk.injEq _ _ _ _ ▸ h
      rw [h2]
      exact add_nonneg (hev key v (dictGet_eq_some_mem _ _ _ hdg)) hinc
    · exact hev l d h
  | none =>
    simp only [hdg, dictGet_dictSet_self, Option.getD_some] at hl
    rcases mem_dictSet _ _ _ _ hl with h | h
    · obtain ⟨_, h2⟩ := Prod.mk.injEq _ _ _ _ ▸ h
      rw [h2]
      simpa using hinc
    · rcases mem_dictSet _ _ _ _ h with h' | h'
      · obtain ⟨_, h2⟩ := Prod.mk.injEq _ _ _ _ ▸ h'
        rw [h2]
      · exact hev l d h'

/-- Overwriting one entry with nonnegative license confidences preserves
the invariant. -/
theorem NonnegDB_dictSet (db : DB) (k : String) (ev : Evidence)
    (hdb : NonnegDB db) (hev : ∀ l d, (l, d) ∈ ev.licenses → 0 ≤ d.confidence) :
    NonnegDB (dictSet db k ev) := by
  intro p e hmem l d hl
  rcases mem_dictSet _ _ _ _ hmem with h | h
  · obtain ⟨_, h2⟩ := Prod.mk.injEq _ _ _ _ ▸ h
    rw [h2] at hl
    exact hev l d hl
  · exact hdb p e h l d hl

/-- Modifying one entry with a license-confidence-preserving function
preserves the invariant. -/
theorem NonnegDB_dictModify (db : DB) (k : String) (f : Evidence → Evidence)
    (hdb : NonnegDB db)
    (hf : ∀ ev, (∀ l d, (l, d) ∈ ev.licenses → 0 ≤ d.confidence) →
      ∀ l d, (l, d) ∈ (f ev).licenses → 0 ≤ d.confidence) :
    NonnegDB (dictModify db k f) := by
  unfold dictModify
  cases hdg : dictGet db k with
  | none => exact hdb
  | some v =>
    exact NonnegDB_dictSet db k (f v) hdb
      (hf v (hdb k v (dictGet_eq_some_mem _ _ _ hdg)))

/-- Fresh-entry insertion preserves the invariant. -/
theorem NonnegDB_ensureEntry (db : DB) (k : String) (hdb : NonnegDB db) :
    NonnegDB (ensureEntry db k) := by
  unfold ensureEntry
  cases hdg : dictGet db k with
  | some v => exact hdb
  | none =>
    refine NonnegDB_dictSet db k _ hdb ?_
    intro l d hl
    simp at hl

/-- One ingestion step preserves the invariant. -/
theorem NonnegDB_applyEvent (db : DB) (e : Event) (hdb : NonnegDB db) :
    NonnegDB (applyEvent db e) := by
  cases e with
  | policyRec r =>
    unfold applyEvent loadPolicyOne
    dsimp only
    have hdb₁ : NonnegDB (match dictGet db r.id with
        | none => dictSet db r.id ⟨r.status, [], 0, []⟩
        | some ev => dictSet db r.id { ev with policy_status := r.status }) := by
      cases hdg : dictGet db r.id with
      | none =>
        refine NonnegDB_dictSet db r.id _ hdb ?_
        intro l d hl
        simp at hl
      | some ev =>
        exact NonnegDB_dictSet db r.id _ hdb
          (hdb r.id ev (dictGet_eq_some_mem _ _ _ hdg))
    by_cases h1 : r.status = some "APPROVED"
    · rw [if_pos h1]
      exact NonnegDB_dictModify _ _ _ hdb₁ (fun ev hev => hev)
    · rw [if_neg h1]
      by_cases h2 : r.status = some "FORBIDDEN"
      · rw [if_pos h2]
        exact NonnegDB_dictModify _ _ _ hdb₁ (fun ev hev => hev)
      · rw [if_neg h2]
        exact hdb₁
  | ortRec r =>
    unfold applyEvent loadOrtOne
    dsimp only
    have hdb₂ : NonnegDB (r.declared_licenses.foldl
        (fun d lic => dictModify d r.id
          (fun ev => bumpLicense ev lic "ORT_declared" 0.4))
        (ensureEntry db r.id)) := by
      have hstart := NonnegDB_ensureEntry db r.id hdb
      generalize ensureEntry db r.id = db₁ at hstart ⊢
      induction r.declared_licenses generalizing db₁ with
      | nil => exact hstart
      | cons lic rest ih =>
        simp only [List.foldl_cons]
        refine ih _ ?_
        exact NonnegDB_dictModify _ _ _ hstart
          (fun ev hev => bumpLicense_nonneg ev lic "ORT_declared" 0.4 hev (by norm_num))
    cases hc : r.concluded_license with
    | none => exact hdb₂
    | some cl =>
      dsimp only
      by_cases hcond : cl ≠ "" ∧ cl ≠ "NOASSERTION"
      · rw [if_pos hcond]
        exact NonnegDB_dictModify _ _ _ hdb₂
          (fun ev hev =>
            bumpLicense_nonneg ev (normLicenseE cl) "ORT_concluded" 0.5 hev (by norm_num))
      · rw [if_neg hcond]
        exact hdb₂
  | pypiRec r =>
    unfold applyEvent loadPypiOne
    dsimp only
    have hdb₁ := NonnegDB_ensureEntry db ("PyPI::" ++ r.package_name ++ ":" ++ r.version) hdb
    cases hc : r.license_from_pypi with
    | none => exact hdb₁
    | some lf =>
      dsimp only
      by_cases hcond : lf ≠ "" ∧ lf ≠ "Not found"
      · rw [if_pos hcond]
        exact NonnegDB_dictModify _ _ _ hdb₁
          (fun ev hev =>
            bumpLicense_nonneg ev (normLicenseE lf) "PyPI_API" 0.3 hev (by norm_num))
      · rw [if_neg hcond]
        exact hdb₁

/-- Any ingested evidence db satisfies the invariant. -/
theorem NonnegDB_ingest (events : List Event) : NonnegDB (ingest events) := by
  unfold ingest
  have h : ∀ db : DB, NonnegDB db → NonnegDB (events.foldl applyEvent db) := by
    induction events with
    | nil => exact fun db hdb => hdb
    | cons e rest ih =>
      intro db hdb
      simp only [List.foldl_cons]
      exact ih _ (NonnegDB_applyEvent db e hdb)
  refine h [] ?_
  intro p ev hmem
  simp at hmem

/-- Scored candidates built from nonnegative accumulated confidences have
confidence in [0, 1]: the clamp `min(1.0, ...)` bounds above and the
nonnegative base plus nonnegative bonuses bound below. -/
theorem mkCandidates_bounds (pol : List (String × List String))
    (lics : List (String × LicEvidence))
    (h : ∀ l d, (l, d) ∈ lics → 0 ≤ d.confidence) :
    ∀ cand ∈ mkCandidates pol lics, 0 ≤ cand.confidence ∧ cand.confidence ≤ 1 := by
  intro cand hc
  obtain ⟨⟨l, d⟩, hmem, hsome⟩ := List.mem_filterMap.mp (by exact hc)
  by_cases hna : l = "NOASSERTION"
  · simp [hna] at hsome
  · simp only [hna, if_false, Option.some.injEq] at hsome
    have hd := h l d hmem
    have hc₁ : 0 ≤ (if is_license_approved pol l then d.confidence + 0.2 else d.confidence) := by
      by_cases ha : is_license_approved pol l
      · simp only [ha, if_true]
        linarith
      · simp only [ha, if_false]
        exact hd
    have hc₂ : 0 ≤ (if d.sources.length > 1 then
        (if is_license_approved pol l then d.confidence + 0.2 else d.confidence) +
          0.1 * (d.sources.length : ℚ)
      else (if is_license_approved pol l then d.confidence + 0.2 else d.confidence)) := by
      by_cases hs : d.sources.length > 1
      · simp only [hs, if_true]
        have : (0 : ℚ) ≤ 0.1 * (d.sources.length : ℚ) :=
          mul_nonneg (by norm_num) (Nat.cast_nonneg _)
        linarith
      · simp only [hs, if_false]
        exact hc₁
    rw [← hsome]
    dsimp only
    constructor
    · exact le_min (by norm_num) hc₂
    · exact min_le_left _ _

/-- Membership is invariant under the stable descending insertion. -/
theorem mem_insertDesc (x z : Candidate) (l : List Candidate) :
    z ∈ insertDesc x l ↔ z = x ∨ z ∈ l := by
  induction l with
  | nil => simp [insertDesc]
  | cons y ys ih =>
    unfold insertDesc
    by_cases h : keyLt x y
    · rw [if_pos h]
      simp only [List.mem_cons, ih]
      tauto
    · rw [if_neg h]
      simp only [List.mem_cons]

/-- Membership is invariant under the stable descending sort. -/
theorem mem_sortDesc (z : Candidate) (l : List Candidate) :
    z ∈ sortDesc l ↔ z ∈ l := by
  induction l with
  | nil => simp [sortDesc]
  | cons x xs ih =>
    unfold sortDesc
    rw [mem_insertDesc]
    simp [ih]

/-- Inversion of `_select_best_license`: a returned best license is the
head of the sorted candidate list and carries that candidate's license,
confidence and sources. -/
theorem select_best_license_some (pol : List (String × List String)) (ev : Evidence)
    (best : Best) (h : select_best_license pol ev = some best) :
    ∃ cand t, sortDesc (mkCandidates pol ev.licenses) = cand :: t ∧
      best.license = cand.license ∧ best.confidence = cand.confidence ∧
      best.sources = cand.sources := by
  unfold select_best_license at h
  by_cases hnil : ev.licenses = []
  · simp [hnil] at h
  · rw [if_neg hnil] at h
    dsimp only at h
    by_cases hcand : mkCandidates pol ev.licenses = []
    · simp [hcand] at h
    · rw [if_neg hcand] at h
      cases hsort : sortDesc (mkCandidates pol ev.licenses) with
      | nil => rw [hsort] at h; simp at h
      | cons cand t =>
        rw [hsort] at h
        simp only [Option.some.injEq] at h
        exact ⟨cand, t, rfl, by rw [← h], by rw [← h], by rw [← h]⟩

/-- Claim C7: whatever records are ingested, every suggestion produced by
`generate_curations` (and hence every manual-review entry) has a confidence
in the closed interval [0, 1]: raw accumulation may exceed 1, but the
selector clamps before returning. -/
theorem C7_confidence_clamped (pol : List (String × List String)) (events : List Event) :
    (∀ cur ∈ (generate_curations pol (ingest events)).1,
      0 ≤ cur.confidence ∧ cur.confidence ≤ 1) ∧
    (∀ cur ∈ (generate_curations pol (ingest events)).2,
      0 ≤ cur.confidence ∧ cur.confidence ≤ 1) := by
  have h1 : ∀ cur ∈ (generate_curations pol (ingest events)).1,
      0 ≤ cur.confidence ∧ cur.confidence ≤ 1 := by
    intro cur hcur
    obtain ⟨pe, hpe, hsome⟩ := generate_curations_mem pol (ingest events) cur hcur
    obtain ⟨_, _, best, hbest, hconf⟩ := curationOf_some pol pe cur hsome
    obtain ⟨cand, t, hsort, _, hbc, _⟩ := select_best_license_some pol pe.2 best hbest
    have hmem : cand ∈ mkCandidates pol pe.2.licenses := by
      rw [← mem_sortDesc, hsort]
      exact List.mem_cons_self _ _
    have hlnn : ∀ l d, (l, d) ∈ pe.2.licenses → 0 ≤ d.confidence :=
      NonnegDB_ingest events pe.1 pe.2 (by obtain ⟨a, b⟩ := pe; exact hpe)
    have hb := mkCandidates_bounds pol pe.2.licenses hlnn cand hmem
    rw [hconf, hbc]
    exact hb
  exact ⟨h1, fun cur hcur => h1 cur (List.mem_of_mem_filter hcur)⟩

/-- Concrete ingestion run: one PyPI record reporting MIT. -/
def evs7 : List Event :=
  [Event.pypiRec ⟨"foo", "1.0", some "MIT"⟩]

/-- The concrete run produces at least one suggestion. -/
theorem evs7_output_ne_nil : (generate_curations [] (ingest evs7)).1 ≠ [] := by
  decide

/-- Claim C7, witness: the clamping theorem applied to the suggestion
produced by the concrete ingestion run `evs7`. -/
theorem C7_confidence_clamped_witness :
    0 ≤ ((generate_curations [] (ingest evs7)).1.head evs7_output_ne_nil).confidence ∧
    ((generate_curations [] (ingest evs7)).1.head evs7_output_ne_nil).confidence ≤ 1 :=
  (C7_confidence_clamped [] evs7).1 _ (List.head_mem evs7_output_ne_nil)

/-! ### Claim C3 -/

/-- Key equality for the sort key `(approved, confidence)`. -/
def keyEq (a b : Candidate) : Prop :=
  bval a.approved = bval b.approved ∧ a.confidence = b.confidence

instance keyEqDec (a b : Candidate) : Decidable (keyEq a b) := by
  unfold keyEq
  infer_instance

theorem keyLt_irrefl (a : Candidate) : ¬ keyLt a a := by
  unfold keyLt
  rintro (h | ⟨_, h⟩) <;> exact lt_irrefl _ h

theorem keyLt_asymm {a b : Candidate} (h : keyLt a b) : ¬ keyLt b a := by
  unfold keyLt at h ⊢
  push_neg
  rcases h with h | ⟨heq, hlt⟩
  · exact ⟨le_of_lt h, fun heq => by linarith⟩
  · exact ⟨le_of_eq heq, fun _ => le_of_lt hlt⟩

theorem not_keyLt_trans {x h y : Candidate} (h1 : ¬ keyLt x h) (h2 : ¬ keyLt h y) :
    ¬ keyLt x y := by
  unfold keyLt at h1 h2 ⊢
  push_neg at h1 h2 ⊢
  obtain ⟨h1a, h1b⟩ := h1
  obtain ⟨h2a, h2b⟩ := h2
  refine ⟨le_trans h2a h1a, ?_⟩
  intro hxy
  have hhx : bval h.approved = bval x.approved := le_antisymm h1a (hxy ▸ h2a)
  have hhy : bval h.approved = bval y.approved := hhx.trans hxy
  exact le_trans (h2b hhy) (h1b hhx.symm)

theorem not_keyEq_of_keyLt {a b : Candidate} (h : keyLt a b) : ¬ keyEq a b := by
  unfold keyLt at h
  unfold keyEq
  rintro ⟨heq, hconf⟩
  rcases h with h | ⟨_, h⟩
  · rw [heq] at h
    exact lt_irrefl _ h
  · rw [hconf] at h
    exact lt_irrefl _ h

theorem insertDesc_ne_nil (x : Candidate) (l : List Candidate) : insertDesc x l ≠ [] := by
  cases l with
  | nil => simp [insertDesc]
  | cons y ys =>
    unfold insertDesc
    by_cases h : keyLt x y <;> simp [h]

theorem sortDesc_eq_nil_iff (l : List Candidate) : sortDesc l = [] ↔ l = [] := by
  cases l with
  | nil => simp [sortDesc]
  | cons x xs => simp [sortDesc, insertDesc_ne_nil]

/-- Head of the stable descending sort: it is an element of the input with
a maximal key, and among the elements with its key it is the first one of
the input (Python's stable `reverse=True` sort keeps insertion order on
ties). -/
theorem sortDesc_head (l : List Candidate) (h : Candidate) (t : List Candidate)
    (heq : sortDesc l = h :: t) :
    h ∈ l ∧ (∀ y ∈ l, ¬ keyLt h y) ∧
    l.find? (fun y => decide (keyEq y h)) = some h := by
  induction l generalizing h t with
  | nil => simp [sortDesc] at heq
  | cons x xs ih =>
    unfold sortDesc at heq
    cases hxs : sortDesc xs with
    | nil =>
      rw [hxs] at heq
      unfold insertDesc at heq
      injection heq with hh ht
      subst hh
      have hxs_nil : xs = [] := (sortDesc_eq_nil_iff xs).mp hxs
      subst hxs_nil
      refine ⟨List.mem_cons_self _ _, ?_, ?_⟩
      · intro y hy
        rcases List.mem_cons.mp hy with hy | hy'
        · rw [hy]
          exact keyLt_irrefl x
        · simp at hy'
      · have hpos : decide (keyEq x x) = true := decide_eq_true ⟨rfl, rfl⟩
        simp only [List.find?, hpos]
    | cons h' t' =>
      rw [hxs] at heq
      unfold insertDesc at heq
      by_cases hlt : keyLt x h'
      · rw [if_pos hlt] at heq
        injection heq with hh ht
        subst hh
        obtain ⟨ihm, ihmax, ihfind⟩ := ih h' t' hxs
        refine ⟨List.mem_cons_of_mem x ihm, ?_, ?_⟩
        · intro y hy
          rcases List.mem_cons.mp hy with hy | hy'
          · rw [hy]
            exact keyLt_asymm hlt
          · exact ihmax y hy'
        · have hne : decide (keyEq x h') = false :=
            decide_eq_false (not_keyEq_of_keyLt hlt)
          simp only [List.find?, hne]
          exact ihfind
      · rw [if_neg hlt] at heq
        injection heq with hh ht
        subst hh
        obtain ⟨ihm, ihmax, ihfind⟩ := ih h' t' hxs
        refine ⟨List.mem_cons_self _ _, ?_, ?_⟩
        · intro y hy
          rcases List.mem_cons.mp hy with hy | hy'
          · rw [hy]
            exact keyLt_irrefl x
          · exact not_keyLt_trans hlt (ihmax y hy')
        · have hpos : decide (keyEq x x) = true := decide_eq_true ⟨rfl, rfl⟩
          simp only [List.find?, hpos]

/-- Claim C3, amended.  When `_select_best_license` returns a best license,
it is one of the scored candidates (score = clamp of accumulated
confidence, +0.2 approval bonus, +0.1·len(sources) multi-source bonus when
there is more than one source, capped at 1.0), its sort key
`(approved, score)` is lexicographically maximal — i.e. policy approval
takes precedence over a higher raw score — and among the key-equal
candidates the earliest-ingested one is returned. -/
theorem C3_selection (pol : List (String × List String)) (ev : Evidence) (best : Best)
    (hsel : select_best_license pol ev = some best) :
    ∃ cand, cand ∈ mkCandidates pol ev.licenses ∧
      best.license = cand.license ∧ best.confidence = cand.confidence ∧
      best.sources = cand.sources ∧
      (∀ c ∈ mkCandidates pol ev.licenses, ¬ keyLt cand c) ∧
      (mkCandidates pol ev.licenses).find? (fun y => decide (keyEq y cand)) = some cand ∧
      ∃ d, (cand.license, d) ∈ ev.licenses ∧
        cand.approved = is_license_approved pol cand.license ∧
        cand.sources = d.sources ∧
        cand.confidence = min 1
          ((if cand.approved then d.confidence + 0.2 else d.confidence) +
            (if d.sources.length > 1 then 0.1 * (d.sources.length : ℚ) else 0)) := by
  obtain ⟨cand, t, hsort, hbl, hbc, hbs⟩ := select_best_license_some pol ev best hsel
  obtain ⟨hmem, hmax, hfind⟩ := sortDesc_head _ cand t hsort
  refine ⟨cand, hmem, hbl, hbc, hbs, hmax, hfind, ?_⟩
  obtain ⟨⟨l, d⟩, hld, hsome⟩ := List.mem_filterMap.mp (by exact hmem)
  by_cases hna : l = "NOASSERTION"
  · simp [hna] at hsome
  · simp only [hna, if_false, Option.some.injEq] at hsome
    refine ⟨d, ?_, ?_, ?_, ?_⟩
    · rw [← hsome]
      exact hld
    · rw [← hsome]
    · rw [← hsome]
    · rw [← hsome]
      dsimp only
      by_cases hs : d.sources.length > 1
      · simp only [hs, if_true]
      · simp only [hs, if_false]
        rw [add_zero]

/-- Claim C3, witness: on the one-candidate evidence `evMitPkg` the
selector returns a candidate with maximal key. -/
theorem C3_selection_witness :
    ∃ cand, cand ∈ mkCandidates [] evMitPkg.licenses ∧
      ∀ c ∈ mkCandidates [] evMitPkg.licenses, ¬ keyLt cand c := by
  have hs : (select_best_license [] evMitPkg).isSome = true := by decide
  obtain ⟨cand, hmem, _, _, _, hmax, _⟩ :=
    C3_selection [] evMitPkg ((select_best_license [] evMitPkg).get hs)
      (Option.some_get hs).symm
  exact ⟨cand, hmem, hmax⟩

/-- Modelled from the claim's wording (C3): score = clamp01 of the
accumulated confidence, +0.20 exactly when approved, and
+0.10·(len(sources)−1) for candidates with more than one source. -/
def claimScore (pol : List (String × List String)) (lic : String) (d : LicEvidence) : ℚ :=
  min 1 (max 0 (d.confidence + (if is_license_approved pol lic then 0.2 else 0) +
    (if d.sources.length > 1 then 0.1 * ((d.sources.length : ℚ) - 1) else 0)))

/-- Evidence with one two-source candidate (scenario for the bonus-formula
divergence). -/
def evTwoSources : Evidence :=
  { policy_status := some "UNKNOWN"
    licenses := [("Apache-2.0", ⟨["ORT_declared", "PyPI_API"], 0.3⟩)]
    confidence := 0
    sources := [] }

/-- Approved-licenses policy section listing only `ZZZ`. -/
def polZZZ : List (String × List String) := [("permissive", ["ZZZ"])]

/-- Evidence where the unapproved candidate has the strictly higher score
(scenario for the approval-dominates-score divergence). -/
def evDominance : Evidence :=
  { policy_status := some "UNKNOWN"
    licenses := [("AAA", ⟨["ORT_declared"], 0.9⟩), ("ZZZ", ⟨["ORT_declared"], 0.1⟩)]
    confidence := 0
    sources := [] }

/-- Approved-licenses policy section listing `AAA` and `BBB`. -/
def polAB : List (String × List String) := [("permissive", ["AAA", "BBB"])]

/-- Evidence with two key-equal candidates ingested as `BBB` before `AAA`
(scenario for the tie-breaking divergence). -/
def evTie : Evidence :=
  { policy_status := some "UNKNOWN"
    licenses := [("BBB", ⟨["PyPI_API"], 0.1⟩), ("AAA", ⟨["PyPI_API"], 0.1⟩)]
    confidence := 0
    sources := [] }

/-- Claim C3, counterexample, refuting the claim in its three parts.
(1) Bonus formula: on the single two-source candidate the code attaches
confidence 0.5 (bonus `0.1·len(sources)`), while the claim's score is 0.4
(bonus `0.1·(len−1)`).  (2) Selection rule: the code returns the approved
candidate `ZZZ` although the unapproved `AAA` has the strictly higher
claim score (0.9 > 0.3) — approval is the primary sort key, not a
tie-break.  (3) Ties: with two key-equal approved candidates the code
returns the first-ingested `BBB`, not the lexicographically smaller
`AAA`. -/
theorem C3_counterexample :
    ((select_best_license [] evTwoSources).map Best.confidence = some 0.5 ∧
      claimScore [] "Apache-2.0" ⟨["ORT_declared", "PyPI_API"], 0.3⟩ = 0.4 ∧
      (0.5 : ℚ) ≠ 0.4) ∧
    ((select_best_license polZZZ evDominance).map Best.license = some "ZZZ" ∧
      claimScore polZZZ "AAA" ⟨["ORT_declared"], 0.9⟩ = 0.9 ∧
      claimScore polZZZ "ZZZ" ⟨["ORT_declared"], 0.1⟩ = 0.3 ∧
      ¬((0.9 : ℚ) ≤ 0.3) ∧ "ZZZ" ≠ "AAA") ∧
    ((select_best_license polAB evTie).map Best.license = some "BBB" ∧
      claimScore polAB "AAA" ⟨["PyPI_API"], 0.1⟩ =
        claimScore polAB "BBB" ⟨["PyPI_API"], 0.1⟩ ∧
      "AAA".data < "BBB".data ∧ "BBB" ≠ "AAA") := by
  have ha1 : is_license_approved [] "Apache-2.0" = false := by decide
  have ha2 : ("Apache-2.0" : String) ≠ "NOASSERTION" := by decide
  have hb1 : is_license_approved polZZZ "AAA" = false := by decide
  have hb2 : is_license_approved polZZZ "ZZZ" = true := by decide
  have hb3 : ("AAA" : String) ≠ "NOASSERTION" := by decide
  have hb4 : ("ZZZ" : String) ≠ "NOASSERTION" := by decide
  have hc1 : is_license_approved polAB "AAA" = true := by decide
  have hc2 : is_license_approved polAB "BBB" = true := by decide
  have hc3 : ("BBB" : String) ≠ "NOASSERTION" := by decide
  refine ⟨⟨?_, ?_, by norm_num⟩, ⟨?_, ?_, ?_, by norm_num, by decide⟩,
    ⟨?_, ?_, by decide, by decide⟩⟩
  · norm_num [select_best_license, mkCandidates, sortDesc,
      insertDesc, keyLt, bval, evTwoSources, ha1, ha2, min_def, List.filterMap]
  · norm_num [claimScore, ha1, min_def, max_def]
  · norm_num [select_best_license, mkCandidates, sortDesc,
      insertDesc, keyLt, bval, evDominance, hb1, hb2, hb3, hb4, min_def,
      List.filterMap]
    exact ⟨_, ⟨by simp, by simp, rfl⟩, rfl⟩
  · norm_num [claimScore, hb1, min_def, max_def]
  · norm_num [claimScore, hb2, min_def, max_def]
  · norm_num [select_best_license, mkCandidates, sortDesc,
      insertDesc, keyLt, bval, evTie, hc1, hc2, hb3, hc3, min_def, List.filterMap]
    exact ⟨_, ⟨by simp, by simp, rfl⟩, rfl⟩
  · norm_num [claimScore, hc1, hc2, min_def, max_def]

/-! ### Claim C2 -/

/-- Claim C2, counterexample.  The claim asserts that `check_license`
leaves the checker's lookup tables unchanged.  Checking a dual-license
expression mutates the chosen operand's metadata dict in place, and that
dict is an entry of `approved_licenses`: the table entry for MIT gains the
`dual_license_choice` / `dual_license_options` keys. -/
theorem C2_counterexample :
    (check_license cSample "MIT OR GPL-3.0-only").2 ≠ cSample ∧
    dictGet (check_license cSample "MIT OR GPL-3.0-only").2.approved_licenses "MIT" ≠
      dictGet cSample.approved_licenses "MIT" := by
  decide

/-- A single-license `APPROVED` result comes from the approved table. -/
theorem single_approved_lookup (c : Checker) (n : String) (md : Metadata)
    (h : check_single_license c n = (PolicyStatus.approved, md)) :
    dictGet c.approved_licenses n = some md := by
  unfold check_single_license at h
  cases hA : dictGet c.approved_licenses n with
  | some v =>
    rw [hA] at h
    injection h with h1 h2
    rw [h2]
  | none =>
    rw [hA] at h
    cases hC : dictGet c.conditional_licenses n with
    | some v => rw [hC] at h; injection h with h1 _; cases h1
    | none =>
      rw [hC] at h
      cases hF : dictGet c.forbidden_licenses n with
      | some v => rw [hF] at h; injection h with h1 _; cases h1
      | none => rw [hF] at h; injection h with h1 _; cases h1

/-- A single-license `CONDITIONAL` result comes from the conditional table,
with the approved lookup failing. -/
theorem single_conditional_lookup (c : Checker) (n : String) (md : Metadata)
    (h : check_single_license c n = (PolicyStatus.conditional, md)) :
    dictGet c.approved_licenses n = none ∧
    dictGet c.conditional_licenses n = some md := by
  unfold check_single_license at h
  cases hA : dictGet c.approved_licenses n with
  | some v => rw [hA] at h; injection h with h1 _; cases h1
  | none =>
    rw [hA] at h
    cases hC : dictGet c.conditional_licenses n with
    | some v =>
      rw [hC] at h
      injection h with h1 h2
      rw [h2]
      exact ⟨rfl, rfl⟩
    | none =>
      rw [hC] at h
      cases hF : dictGet c.forbidden_licenses n with
      | some v => rw [hF] at h; injection h with h1 _; cases h1
      | none => rw [hF] at h; injection h with h1 _; cases h1

/-- Overwriting the metadata value of an existing approved-table key does
not change any single-license classification status. -/
theorem single_status_dictSet_approved (c : Checker) (k : String) (md' : Metadata)
    (hk : (dictGet c.approved_licenses k).isSome = true) (m : String) :
    (check_single_license
      { c with approved_licenses := dictSet c.approved_licenses k md' } m).1 =
    (check_single_license c m).1 := by
  unfold check_single_license
  dsimp only
  by_cases hkm : m = k
  · subst hkm
    cases hA : dictGet c.approved_licenses m with
    | some v => rw [dictGet_dictSet_self]
    | none => rw [hA] at hk; simp at hk
  · rw [dictGet_dictSet_ne _ _ _ _ hkm]

/-- Overwriting the metadata value of an existing conditional-table key
does not change any single-license classification status. -/
theorem single_status_dictSet_conditional (c : Checker) (k : String) (md' : Metadata)
    (hk : (dictGet c.conditional_licenses k).isSome = true) (m : String) :
    (check_single_license
      { c with conditional_licenses := dictSet c.conditional_licenses k md' } m).1 =
    (check_single_license c m).1 := by
  unfold check_single_license
  dsimp only
  cases hA : dictGet c.approved_licenses m with
  | some v => rfl
  | none =>
    by_cases hkm : m = k
    · subst hkm
      cases hC : dictGet c.conditional_licenses m with
      | some v => rw [dictGet_dictSet_self]
      | none => rw [hC] at hk; simp at hk
    · rw [dictGet_dictSet_ne _ _ _ _ hkm]

/-- Fusion of `any` over a mapped list. -/
theorem any_map_comp {α β : Type} (l : List α) (f : α → β) (p : β → Bool) :
    (l.map f).any p = l.any (fun x => p (f x)) := by
  induction l with
  | nil => rfl
  | cons x xs ih => simp only [List.map_cons, List.any_cons, ih]

/-- Fusion of `all` over a mapped list. -/
theorem all_map_comp {α β : Type} (l : List α) (f : α → β) (p : β → Bool) :
    (l.map f).all p = l.all (fun x => p (f x)) := by
  induction l with
  | nil => rfl
  | cons x xs ih => simp only [List.map_cons, List.all_cons, ih]

/-- Pointwise-equal predicates give equal `any`. -/
theorem any_pred_congr {α : Type} (l : List α) (p q : α → Bool) (h : ∀ x, p x = q x) :
    l.any p = l.any q := by
  rw [funext h]

/-- Pointwise-equal predicates give equal `all`. -/
theorem all_pred_congr {α : Type} (l : List α) (p q : α → Bool) (h : ∀ x, p x = q x) :
    l.all p = l.all q := by
  rw [funext h]

/-- The status of `_check_multi_license` only depends on the compatibility
matrix and on the statuses of the operands' single-license checks. -/
theorem multi_status_congr (c c' : Checker)
    (hmat : c'.license_compatibility = c.license_compatibility)
    (hst : ∀ m, (check_single_license c' m).1 = (check_single_license c m).1)
    (expr : String) :
    (check_multi_license c' expr).1 = (check_multi_license c expr).1 := by
  unfold check_multi_license
  dsimp only
  have hiss : multiIssues c' ((pySplitOn expr " AND ").map pyStrip) =
      multiIssues c ((pySplitOn expr " AND ").map pyStrip) := by
    unfold multiIssues check_compatibility
    rw [hmat]
  rw [hiss]
  by_cases hne : multiIssues c ((pySplitOn expr " AND ").map pyStrip) ≠ []
  · rw [if_pos hne, if_pos hne]
  · rw [if_neg hne, if_neg hne]
    have hany : (((pySplitOn expr " AND ").map pyStrip).map
        (fun lic => (lic, check_single_license c' (normalize_license lic)))).any
          (fun t => t.2.1 == PolicyStatus.forbidden) =
        (((pySplitOn expr " AND ").map pyStrip).map
        (fun lic => (lic, check_single_license c (normalize_license lic)))).any
          (fun t => t.2.1 == PolicyStatus.forbidden) := by
      rw [any_map_comp, any_map_comp, any_map_comp, any_map_comp]
      refine any_pred_congr _ _ _ ?_
      intro lic
      dsimp only
      rw [hst (normalize_license (pyStrip lic))]
    have hall : (((pySplitOn expr " AND ").map pyStrip).map
        (fun lic => (lic, check_single_license c' (normalize_license lic)))).all
          (fun t => t.2.1 == PolicyStatus.approved) =
        (((pySplitOn expr " AND ").map pyStrip).map
        (fun lic => (lic, check_single_license c (normalize_license lic)))).all
          (fun t => t.2.1 == PolicyStatus.approved) := by
      rw [all_map_comp, all_map_comp, all_map_comp, all_map_comp]
      refine all_pred_congr _ _ _ ?_
      intro lic
      dsimp only
      rw [hst (normalize_license (pyStrip lic))]
    rw [hany, hall]

/-- Status congruence for the operand evaluation of the dual branch, under
an approved-table metadata overwrite at an existing key. -/
theorem noOr_status_dictSet_approved (c : Checker) (k : String) (md' : Metadata)
    (hk : (dictGet c.approved_licenses k).isSome = true) (x : String) :
    (check_license_noOr
      { c with approved_licenses := dictSet c.approved_licenses k md' } x).1 =
    (check_license_noOr c x).1 := by
  unfold check_license_noOr
  by_cases hx : strContains (normalize_license x) " AND " = true
  · rw [if_pos hx, if_pos hx]
    exact multi_status_congr c
      { c with approved_licenses := dictSet c.approved_licenses k md' } rfl
      (single_status_dictSet_approved c k md' hk) (normalize_license x)
  · rw [if_neg hx, if_neg hx]
    exact single_status_dictSet_approved c k md' hk (normalize_license x)

/-- Status congruence for the operand evaluation of the dual branch, under
a conditional-table metadata overwrite at an existing key. -/
theorem noOr_status_dictSet_conditional (c : Checker) (k : String) (md' : Metadata)
    (hk : (dictGet c.conditional_licenses k).isSome = true) (x : String) :
    (check_license_noOr
      { c with conditional_licenses := dictSet c.conditional_licenses k md' } x).1 =
    (check_license_noOr c x).1 := by
  unfold check_license_noOr
  by_cases hx : strContains (normalize_license x) " AND " = true
  · rw [if_pos hx, if_pos hx]
    exact multi_status_congr c
      { c with conditional_licenses := dictSet c.conditional_licenses k md' } rfl
      (single_status_dictSet_conditional c k md' hk) (normalize_license x)
  · rw [if_neg hx, if_neg hx]
    exact single_status_dictSet_conditional c k md' hk (normalize_license x)

/-- Inversion of a successful `find?` over the dual branch's results list:
the returned triple is the operand paired with its own evaluation, and the
base list finds the same operand. -/
theorem dual_find_inv (c : Checker) (S : List String) (st : PolicyStatus)
    (lic : String) (st' : PolicyStatus) (md : Metadata)
    (hfa : (S.map (fun l => (l, check_license_noOr c l))).find?
      (fun r => r.2.1 == st) = some (lic, st', md)) :
    S.find? (fun x => (check_license_noOr c x).1 == st) = some lic ∧
    check_license_noOr c lic = (st', md) := by
  rw [List.find?_map] at hfa
  cases hS : S.find? ((fun r => r.2.1 == st) ∘ (fun l => (l, check_license_noOr c l))) with
  | none => rw [hS] at hfa; simp at hfa
  | some x =>
    rw [hS] at hfa
    simp only [Option.map_some'] at hfa
    injection hfa with hfa
    obtain ⟨h1, h2⟩ := Prod.mk.injEq _ _ _ _ ▸ hfa
    subst h1
    constructor
    · rw [← hS]
      rfl
    · rw [h2]

/-- Evaluation of the single-license check at the freshly overwritten
approved-table key. -/
theorem single_approvedSet_eval (c : Checker) (k : String) (md' : Metadata) :
    check_single_license
      { c with approved_licenses := dictSet c.approved_licenses k md' } k =
      (PolicyStatus.approved, md') := by
  unfold check_single_license
  dsimp only
  rw [dictGet_dictSet_self]

/-- Evaluation of the single-license check at the freshly overwritten
conditional-table key, when the key is not in the approved table. -/
theorem single_conditionalSet_eval (c : Checker) (k : String) (md' : Metadata)
    (hA : dictGet c.approved_licenses k = none) :
    check_single_license
      { c with conditional_licenses := dictSet c.conditional_licenses k md' } k =
      (PolicyStatus.conditional, md') := by
  unfold check_single_license
  dsimp only
  rw [hA, dictGet_dictSet_self]

/-- A failed `find?` over the dual branch's results list fails on the base
operand list as well. -/
theorem dual_find_none (c : Checker) (S : List String) (st : PolicyStatus)
    (h : (S.map (fun l => (l, check_license_noOr c l))).find?
      (fun r => r.2.1 == st) = none) :
    S.find? (fun x => (check_license_noOr c x).1 == st) = none := by
  rw [List.find?_map] at h
  exact Option.map_eq_none'.mp h

/-- Metadata dict of the chosen dual-license operand after the in-place
`dual_license_choice` / `dual_license_options` assignments. -/
def dualMeta (md : Metadata) (lic : String) (S : List String) : Metadata :=
  dictSet (dictSet md "dual_license_choice" (MVal.str lic))
    "dual_license_options" (MVal.strList S)

/-- The two-key `dual_license_choice` / `dual_license_options` update is
absorbed when the metadata dict already carries exactly those values. -/
theorem dualMeta_fixed (md : Metadata) (lic : String) (S : List String) :
    dualMeta (dualMeta md lic S) lic S = dualMeta md lic S := by
  unfold dualMeta
  have h1 : dictGet (dictSet (dictSet md "dual_license_choice" (MVal.str lic))
      "dual_license_options" (MVal.strList S)) "dual_license_choice" =
      some (MVal.str lic) := by
    rw [dictGet_dictSet_ne _ _ _ _ (by decide), dictGet_dictSet_self]
  rw [dictSet_of_dictGet_eq _ _ _ h1]
  exact dictSet_of_dictGet_eq _ _ _ (dictGet_dictSet_self _ _ _)

/-- Running `_check_dual_license` a second time on the post-call checker
state returns the same result and does not change the state further. -/
theorem check_dual_idempotent (c : Checker) (n : String) :
    check_dual_license (check_dual_license c n).2 n = check_dual_license c n := by
  by_cases hstrat : c.dual_license_strategy = "choose_most_permissive"
  · cases hfa : (((pySplitOn n " OR ").map pyStrip).map
        (fun lic => (lic, check_license_noOr c lic))).find?
        (fun r => r.2.1 == PolicyStatus.approved) with
    | some res =>
      obtain ⟨lic, st, md⟩ := res
      have hst : st = PolicyStatus.approved := by
        have h := List.find?_some hfa
        have h' : (st == PolicyStatus.approved) = true := h
        exact beq_iff_eq.mp h'
      subst hst
      obtain ⟨hSfind, hnoOr⟩ := dual_find_inv c _ _ _ _ _ hfa
      by_cases hAndLic : strContains (normalize_license lic) " AND " = true
      · -- the chosen operand is an AND expression: its metadata dict is
        -- fresh, so the state is unchanged and the second run is identical
        have h1 : check_dual_license c n = ((PolicyStatus.approved,
            dualMeta md lic ((pySplitOn n " OR ").map pyStrip)), c) := by
          unfold check_dual_license
          dsimp only
          rw [if_pos hstrat]
          simp only [hfa]
          rw [if_pos hAndLic]
          rfl
        rw [h1]
        exact h1
      · -- the chosen operand came from the approved table: the table entry
        -- is overwritten, and the second run re-selects the same operand
        have hAndF : strContains (normalize_license lic) " AND " = false :=
          Bool.eq_false_iff.mpr hAndLic
        have hsingle : check_single_license c (normalize_license lic) =
            (PolicyStatus.approved, md) := by
          unfold check_license_noOr at hnoOr
          simp only [hAndF, Bool.false_eq_true, if_false] at hnoOr
          exact hnoOr
        have hlook := single_approved_lookup c (normalize_license lic) md hsingle
        have hkSome :
            (dictGet c.approved_licenses (normalize_license lic)).isSome = true := by
          rw [hlook]
          rfl
        have h1 : check_dual_license c n = ((PolicyStatus.approved,
            dualMeta md lic ((pySplitOn n " OR ").map pyStrip)),
            { c with approved_licenses := (dictSet c.approved_licenses
                (normalize_license lic)
                (dualMeta md lic ((pySplitOn n " OR ").map pyStrip))) }) := by
          unfold check_dual_license
          dsimp only
          rw [if_pos hstrat]
          simp only [hfa]
          rw [hAndF]
          simp only [Bool.false_eq_true, if_false]
          rfl
        rw [h1]
        have hnoOrStat := noOr_status_dictSet_approved c (normalize_license lic)
          (dualMeta md lic ((pySplitOn n " OR ").map pyStrip)) hkSome
        have hnoOr₂ : check_license_noOr
            { c with approved_licenses := (dictSet c.approved_licenses
                (normalize_license lic)
                (dualMeta md lic ((pySplitOn n " OR ").map pyStrip))) } lic =
            (PolicyStatus.approved,
              dualMeta md lic ((pySplitOn n " OR ").map pyStrip)) := by
          unfold check_license_noOr
          simp only [hAndF, Bool.false_eq_true, if_false]
          exact single_approvedSet_eval c (normalize_license lic)
            (dualMeta md lic ((pySplitOn n " OR ").map pyStrip))
        have hfa₂ : (((pySplitOn n " OR ").map pyStrip).map
            (fun l => (l, check_license_noOr
              { c with approved_licenses := (dictSet c.approved_licenses
                  (normalize_license lic)
                  (dualMeta md lic ((pySplitOn n " OR ").map pyStrip))) } l))).find?
            (fun r => r.2.1 == PolicyStatus.approved) =
            some (lic, PolicyStatus.approved,
              dualMeta md lic ((pySplitOn n " OR ").map pyStrip)) := by
          rw [List.find?_map]
          have hpred : ∀ x : String,
              ((fun r => r.2.1 == PolicyStatus.approved) ∘
                (fun l => (l, check_license_noOr
                  { c with approved_licenses := (dictSet c.approved_licenses
                      (normalize_license lic)
                      (dualMeta md lic ((pySplitOn n " OR ").map pyStrip))) } l))) x =
              (fun x => (check_license_noOr c x).1 == PolicyStatus.approved) x := by
            intro x
            simp only [Function.comp]
            rw [hnoOrStat x]
          rw [funext hpred, hSfind]
          simp only [Option.map_some']
          rw [hnoOr₂]
        unfold check_dual_license
        dsimp only
        rw [if_pos hstrat]
        simp only [hfa₂]
        rw [hAndF]
        simp only [Bool.false_eq_true, if_false]
        have hfix : dictSet (dictSet
            (dualMeta md lic ((pySplitOn n " OR ").map pyStrip))
            "dual_license_choice" (MVal.str lic)) "dual_license_options"
            (MVal.strList ((pySplitOn n " OR ").map pyStrip)) =
            dualMeta md lic ((pySplitOn n " OR ").map pyStrip) :=
          dualMeta_fixed md lic ((pySplitOn n " OR ").map pyStrip)
        rw [hfix]
        have happ : dictSet (dictSet c.approved_licenses (normalize_license lic)
            (dualMeta md lic ((pySplitOn n " OR ").map pyStrip)))
            (normalize_license lic)
            (dualMeta md lic ((pySplitOn n " OR ").map pyStrip)) =
            dictSet c.approved_licenses (normalize_license lic)
            (dualMeta md lic ((pySplitOn n " OR ").map pyStrip)) :=
          dictSet_dictSet_self _ _ _ _
        rw [happ]
    | none =>
      cases hfc : (((pySplitOn n " OR ").map pyStrip).map
          (fun lic => (lic, check_license_noOr c lic))).find?
          (fun r => r.2.1 == PolicyStatus.conditional) with
      | some res =>
        obtain ⟨lic, st, md⟩ := res
        have hst : st = PolicyStatus.conditional := by
          have h := List.find?_some hfc
          have h' : (st == PolicyStatus.conditional) = true := h
          exact beq_iff_eq.mp h'
        subst hst
        have hSfindA := dual_find_none c _ _ hfa
        obtain ⟨hSfind, hnoOr⟩ := dual_find_inv c _ _ _ _ _ hfc
        by_cases hAndLic : strContains (normalize_license lic) " AND " = true
        · have h1 : check_dual_license c n = ((PolicyStatus.conditional,
              dualMeta md lic ((pySplitOn n " OR ").map pyStrip)), c) := by
            unfold check_dual_license
            dsimp only
            rw [if_pos hstrat]
            simp only [hfa, hfc]
            rw [if_pos hAndLic]
            rfl
          rw [h1]
          exact h1
        · have hAndF : strContains (normalize_license lic) " AND " = false :=
            Bool.eq_false_iff.mpr hAndLic
          have hsingle : check_single_license c (normalize_license lic) =
              (PolicyStatus.conditional, md) := by
            unfold check_license_noOr at hnoOr
            simp only [hAndF, Bool.false_eq_true, if_false] at hnoOr
            exact hnoOr
          obtain ⟨hlookA, hlookC⟩ :=
            single_conditional_lookup c (normalize_license lic) md hsingle
          have hkSome : (dictGet c.conditional_licenses
              (normalize_license lic)).isSome = true := by
            rw [hlookC]
            rfl
          have h1 : check_dual_license c n = ((PolicyStatus.conditional,
              dualMeta md lic ((pySplitOn n " OR ").map pyStrip)),
              { c with conditional_licenses := (dictSet c.conditional_licenses
                  (normalize_license lic)
                  (dualMeta md lic ((pySplitOn n " OR ").map pyStrip))) }) := by
            unfold check_dual_license
            dsimp only
            rw [if_pos hstrat]
            simp only [hfa, hfc]
            rw [hAndF]
            simp only [Bool.false_eq_true, if_false]
            rfl
          rw [h1]
          have hnoOrStat := noOr_status_dictSet_conditional c (normalize_license lic)
            (dualMeta md lic ((pySplitOn n " OR ").map pyStrip)) hkSome
          have hnoOr₂ : check_license_noOr
              { c with conditional_licenses := (dictSet c.conditional_licenses
                  (normalize_license lic)
                  (dualMeta md lic ((pySplitOn n " OR ").map pyStrip))) } lic =
              (PolicyStatus.conditional,
                dualMeta md lic ((pySplitOn n " OR ").map pyStrip)) := by
            unfold check_license_noOr
            simp only [hAndF, Bool.false_eq_true, if_false]
            exact single_conditionalSet_eval c (normalize_license lic)
              (dualMeta md lic ((pySplitOn n " OR ").map pyStrip)) hlookA
          have hfa₂ : (((pySplitOn n " OR ").map pyStrip).map
              (fun l => (l, check_license_noOr
                { c with conditional_licenses := (dictSet c.conditional_licenses
                    (normalize_license lic)
                    (dualMeta md lic ((pySplitOn n " OR ").map pyStrip))) } l))).find?
              (fun r => r.2.1 == PolicyStatus.approved) = none := by
            rw [List.find?_map]
            have hpred : ∀ x : String,
                ((fun r => r.2.1 == PolicyStatus.approved) ∘
                  (fun l => (l, check_license_noOr
                    { c with conditional_licenses := (dictSet c.conditional_licenses
                        (normalize_license lic)
                        (dualMeta md lic ((pySplitOn n " OR ").map pyStrip))) } l))) x =
                (fun x => (check_license_noOr c x).1 == PolicyStatus.approved) x := by
              intro x
              simp only [Function.comp]
              rw [hnoOrStat x]
            rw [funext hpred, hSfindA]
            rfl
          have hfc₂ : (((pySplitOn n " OR ").map pyStrip).map
              (fun l => (l, check_license_noOr
                { c with conditional_licenses := (dictSet c.conditional_licenses
                    (normalize_license lic)
                    (dualMeta md lic ((pySplitOn n " OR ").map pyStrip))) } l))).find?
              (fun r => r.2.1 == PolicyStatus.conditional) =
              some (lic, PolicyStatus.conditional,
                dualMeta md lic ((pySplitOn n " OR ").map pyStrip)) := by
            rw [List.find?_map]
            have hpred : ∀ x : String,
                ((fun r => r.2.1 == PolicyStatus.conditional) ∘
                  (fun l => (l, check_license_noOr
                    { c with conditional_licenses := (dictSet c.conditional_licenses
                        (normalize_license lic)
                        (dualMeta md lic ((pySplitOn n " OR ").map pyStrip))) } l))) x =
                (fun x => (check_license_noOr c x).1 == PolicyStatus.conditional) x := by
              intro x
              simp only [Function.comp]
              rw [hnoOrStat x]
            rw [funext hpred, hSfind]
            simp only [Option.map_some']
            rw [hnoOr₂]
          unfold check_dual_license
          dsimp only
          rw [if_pos hstrat]
          simp only [hfa₂, hfc₂]
          rw [hAndF]
          simp only [Bool.false_eq_true, if_false]
          have hfix : dictSet (dictSet
              (dualMeta md lic ((pySplitOn n " OR ").map pyStrip))
              "dual_license_choice" (MVal.str lic)) "dual_license_options"
              (MVal.strList ((pySplitOn n " OR ").map pyStrip)) =
              dualMeta md lic ((pySplitOn n " OR ").map pyStrip) :=
            dualMeta_fixed md lic ((pySplitOn n " OR ").map pyStrip)
          rw [hfix]
          have hcond : dictSet (dictSet c.conditional_licenses (normalize_license lic)
              (dualMeta md lic ((pySplitOn n " OR ").map pyStrip)))
              (normalize_license lic)
              (dualMeta md lic ((pySplitOn n " OR ").map pyStrip)) =
              dictSet c.conditional_licenses (normalize_license lic)
              (dualMeta md lic ((pySplitOn n " OR ").map pyStrip)) :=
            dictSet_dictSet_self _ _ _ _
          rw [hcond]
      | none =>
        have h1 : check_dual_license c n =
            (dualFallback ((pySplitOn n " OR ").map pyStrip), c) := by
          unfold check_dual_license
          dsimp only
          rw [if_pos hstrat]
          simp only [hfa, hfc]
        rw [h1]
        exact h1
  · have h1 : check_dual_license c n =
        (dualFallback ((pySplitOn n " OR ").map pyStrip), c) := by
      unfold check_dual_license
      dsimp only
      rw [if_neg hstrat]
    rw [h1]
    exact h1

/-- Claim C2, amended.  `check_license` can mutate the checker state: on an
OR expression it records `dual_license_choice` / `dual_license_options`
inside the chosen operand's metadata dict, which lives in the
`approved_licenses` (or `conditional_licenses`) table.  It is nevertheless
idempotent: a second call on the same expression returns the identical
(status, metadata) result and leaves the post-first-call state unchanged —
so repeated calls are stable, but the claim's "lookup tables unchanged"
part fails. -/
theorem C2_check_license_idempotent (c : Checker) (e : String) :
    check_license ((check_license c e).2) e = check_license c e := by
  by_cases hOr : strContains (normalize_license e) " OR " = true
  · have h1 : ∀ c' : Checker,
        check_license c' e = check_dual_license c' (normalize_license e) := by
      intro c'
      unfold check_license
      rw [if_pos hOr]
    rw [h1 c, h1 ((check_dual_license c (normalize_license e)).2)]
    exact check_dual_idempotent c (normalize_license e)
  · have hOr' : strContains (normalize_license e) " OR " = false :=
      Bool.eq_false_iff.mpr hOr
    have hst : (check_license c e).2 = c := by
      unfold check_license
      simp only [hOr', Bool.false_eq_true, if_false]
      by_cases hAnd : strContains (normalize_license e) " AND " = true
      · rw [if_pos hAnd]
      · rw [if_neg hAnd]
    rw [hst]

end LCT
